import Mathlib

/-!
Verification development for the weather-pipeline of this repository
(the `gen-agent` and `react-agent` `graph.ts` variants).

JavaScript strings are modelled as `List Char` (`Str`).  The ASCII case
conversions performed by `toLowerCase()` / `toUpperCase()` are modelled by an
explicit table of the 26 letter pairs; on ASCII input this coincides with the
JavaScript functions.  External capabilities (the Tavily text search, the
chat/structured-completion model and the JS regex engine driving them) are
modelled as oracle parameters: the pipeline's own control flow, guards and
string post-processing are translated literally from the source.
-/

/-- Model of a JavaScript string: a list of characters. -/
abbrev Str := List Char

/-- Coercion from Lean string literals into the model. -/
def S (s : String) : Str := s.data

/-- Table of the 26 ASCII letter case pairs (lowercase, uppercase). -/
def caseTable : List (Char × Char) :=
  [('a', 'A'), ('b', 'B'), ('c', 'C'), ('d', 'D'), ('e', 'E'), ('f', 'F'),
   ('g', 'G'), ('h', 'H'), ('i', 'I'), ('j', 'J'), ('k', 'K'), ('l', 'L'),
   ('m', 'M'), ('n', 'N'), ('o', 'O'), ('p', 'P'), ('q', 'Q'), ('r', 'R'),
   ('s', 'S'), ('t', 'T'), ('u', 'U'), ('v', 'V'), ('w', 'W'), ('x', 'X'),
   ('y', 'Y'), ('z', 'Z')]

/-- Model of JS `toUpperCase` on a single character (ASCII). -/
def toUpperC (c : Char) : Char :=
  match caseTable.find? (fun p => p.1 = c) with
  | some p => p.2
  | none => c

/-- Model of JS `toLowerCase` on a single character (ASCII). -/
def toLowerC (c : Char) : Char :=
  match caseTable.find? (fun p => p.2 = c) with
  | some p => p.1
  | none => c

/-- Whether a character is an ASCII lowercase letter. -/
def isLowerC (c : Char) : Bool := caseTable.any (fun p => p.1 = c)

/-- Whether a character is an ASCII uppercase letter. -/
def isUpperC (c : Char) : Bool := caseTable.any (fun p => p.2 = c)

/-- Whether a character is an ASCII letter. -/
def isLetterC (c : Char) : Bool := isLowerC c || isUpperC c

/-- Model of JS `toLowerCase` on a string. -/
def lowerS (s : Str) : Str := s.map toLowerC

/-- Model of JS `toUpperCase` on a string. -/
def upperS (s : Str) : Str := s.map toUpperC

/-- Whitespace recognised by the model of JS `trim`. -/
def isWS (c : Char) : Bool := c = ' ' || c = '\t' || c = '\n' || c = '\r'

/-- Model of JS `trim`: strip leading and trailing whitespace. -/
def trimS (s : Str) : Str :=
  (((s.dropWhile isWS).reverse.dropWhile isWS)).reverse

/-- Split a string on a separator character, JS `split(sep)` semantics. -/
def splitOnChar (c : Char) : Str → List Str
  | [] => [[]]
  | x :: xs =>
    if x = c then [] :: splitOnChar c xs
    else
      match splitOnChar c xs with
      | [] => [[x]]
      | w :: ws => (x :: w) :: ws

/-- Join a list of strings with a separator character, JS `join(sep)`. -/
def joinChar (c : Char) : List Str → Str
  | [] => []
  | [w] => w
  | w :: ws => w ++ c :: joinChar c ws

/-- Model of JS `includes` for a substring: some offset has `pat` as prefix. -/
def containsSubstrS (s pat : Str) : Bool :=
  (List.range (s.length + 1)).any (fun i => pat.isPrefixOf (List.drop i s))

/-- JS `word.charAt(0).toUpperCase() + word.slice(1).toLowerCase()`. -/
def capWord (w : Str) : Str :=
  match w with
  | [] => []
  | c :: rest => toUpperC c :: lowerS rest

/-- Title-casing used by `formatCityName`: split on spaces, capitalise each
word, join with spaces. -/
def titleCase (s : Str) : Str :=
  joinChar ' ' ((splitOnChar ' ' s).map capWord)

-- ### Case-table facts, established once by computation

/-- Each uppercase table image has no table entry keyed on it as lowercase. -/
theorem caseTable_snd_not_fst :
    caseTable.all (fun p => (caseTable.find? (fun q => q.1 = p.2)).isNone) = true := by
  decide

/-- Each lowercase table key has no table entry with it as uppercase image. -/
theorem caseTable_fst_not_snd :
    caseTable.all (fun p => (caseTable.find? (fun q => q.2 = p.1)).isNone) = true := by
  decide

/-- Looking up an uppercase image finds exactly its own entry. -/
theorem caseTable_find_snd :
    caseTable.all (fun p => (caseTable.find? (fun q => q.2 = p.2)) = some p) = true := by
  decide

/-- Looking up a lowercase key finds exactly its own entry. -/
theorem caseTable_find_fst :
    caseTable.all (fun p => (caseTable.find? (fun q => q.1 = p.1)) = some p) = true := by
  decide

/-- Unfolding equation for `toUpperC` when the lookup fails. -/
theorem toUpperC_of_none {c : Char} (h : caseTable.find? (fun p => p.1 = c) = none) :
    toUpperC c = c := by
  unfold toUpperC; rw [h]

/-- Unfolding equation for `toUpperC` when the lookup succeeds. -/
theorem toUpperC_of_some {c : Char} {p : Char × Char}
    (h : caseTable.find? (fun q => q.1 = c) = some p) : toUpperC c = p.2 := by
  unfold toUpperC; rw [h]

/-- Unfolding equation for `toLowerC` when the lookup fails. -/
theorem toLowerC_of_none {c : Char} (h : caseTable.find? (fun p => p.2 = c) = none) :
    toLowerC c = c := by
  unfold toLowerC; rw [h]

/-- Unfolding equation for `toLowerC` when the lookup succeeds. -/
theorem toLowerC_of_some {c : Char} {p : Char × Char}
    (h : caseTable.find? (fun q => q.2 = c) = some p) : toLowerC c = p.1 := by
  unfold toLowerC; rw [h]

/-- Characters whose lowercase lookup fails are not lowercase. -/
theorem isLowerC_eq_false {c : Char} (h : caseTable.find? (fun p => p.1 = c) = none) :
    isLowerC c = false := by
  rw [isLowerC, List.any_eq_false]
  intro q hq
  simpa using List.find?_eq_none.mp h q hq

/-- Characters whose uppercase lookup fails are not uppercase. -/
theorem isUpperC_eq_false {c : Char} (h : caseTable.find? (fun p => p.2 = c) = none) :
    isUpperC c = false := by
  rw [isUpperC, List.any_eq_false]
  intro q hq
  simpa using List.find?_eq_none.mp h q hq

/-- Uppercasing never yields an ASCII lowercase letter. -/
theorem isLowerC_toUpperC (c : Char) : isLowerC (toUpperC c) = false := by
  cases h : caseTable.find? (fun p => p.1 = c) with
  | none =>
    rw [toUpperC_of_none h]
    exact isLowerC_eq_false h
  | some p =>
    rw [toUpperC_of_some h]
    have hmem := List.mem_of_find?_eq_some h
    have hfact := List.all_eq_true.mp caseTable_snd_not_fst p hmem
    rw [Option.isNone_iff_eq_none] at hfact
    exact isLowerC_eq_false hfact

/-- Lowercasing never yields an ASCII uppercase letter. -/
theorem isUpperC_toLowerC (c : Char) : isUpperC (toLowerC c) = false := by
  cases h : caseTable.find? (fun p => p.2 = c) with
  | none =>
    rw [toLowerC_of_none h]
    exact isUpperC_eq_false h
  | some p =>
    rw [toLowerC_of_some h]
    have hmem := List.mem_of_find?_eq_some h
    have hfact := List.all_eq_true.mp caseTable_fst_not_snd p hmem
    rw [Option.isNone_iff_eq_none] at hfact
    exact isUpperC_eq_false hfact

/-- Lowercasing after uppercasing equals plain lowercasing. -/
theorem toLowerC_toUpperC (c : Char) : toLowerC (toUpperC c) = toLowerC c := by
  cases h : caseTable.find? (fun p => p.1 = c) with
  | none => rw [toUpperC_of_none h]
  | some p =>
    rw [toUpperC_of_some h]
    have hmem := List.mem_of_find?_eq_some h
    have hc : p.1 = c := by simpa using List.find?_some h
    have hfind := List.all_eq_true.mp caseTable_find_snd p hmem
    rw [decide_eq_true_iff] at hfind
    rw [toLowerC_of_some hfind]
    have hnone := List.all_eq_true.mp caseTable_fst_not_snd p hmem
    rw [Option.isNone_iff_eq_none] at hnone
    rw [hc] at hnone
    rw [toLowerC_of_none hnone, hc]

/-- Uppercasing after lowercasing equals plain uppercasing. -/
theorem toUpperC_toLowerC (c : Char) : toUpperC (toLowerC c) = toUpperC c := by
  cases h : caseTable.find? (fun p => p.2 = c) with
  | none => rw [toLowerC_of_none h]
  | some p =>
    rw [toLowerC_of_some h]
    have hmem := List.mem_of_find?_eq_some h
    have hc : p.2 = c := by simpa using List.find?_some h
    have hfind := List.all_eq_true.mp caseTable_find_fst p hmem
    rw [decide_eq_true_iff] at hfind
    rw [toUpperC_of_some hfind]
    have hnone := List.all_eq_true.mp caseTable_snd_not_fst p hmem
    rw [Option.isNone_iff_eq_none] at hnone
    rw [hc] at hnone
    rw [toUpperC_of_none hnone, hc]

/-- Lowercasing a character is idempotent. -/
theorem toLowerC_toLowerC (c : Char) : toLowerC (toLowerC c) = toLowerC c := by
  cases h : caseTable.find? (fun p => p.2 = c) with
  | none => rw [toLowerC_of_none h]; exact toLowerC_of_none h
  | some p =>
    rw [toLowerC_of_some h]
    have hmem := List.mem_of_find?_eq_some h
    have hnone := List.all_eq_true.mp caseTable_fst_not_snd p hmem
    rw [Option.isNone_iff_eq_none] at hnone
    rw [toLowerC_of_none hnone]

/-- Uppercasing a character is idempotent. -/
theorem toUpperC_toUpperC (c : Char) : toUpperC (toUpperC c) = toUpperC c := by
  cases h : caseTable.find? (fun p => p.1 = c) with
  | none => rw [toUpperC_of_none h]; exact toUpperC_of_none h
  | some p =>
    rw [toUpperC_of_some h]
    have hmem := List.mem_of_find?_eq_some h
    have hnone := List.all_eq_true.mp caseTable_snd_not_fst p hmem
    rw [Option.isNone_iff_eq_none] at hnone
    rw [toUpperC_of_none hnone]

-- ### Whitespace and separator facts

/-- No character in the case table is whitespace. -/
theorem caseTable_not_ws :
    caseTable.all (fun p => !isWS p.1 && !isWS p.2) = true := by
  decide

/-- Lowercasing maps a character to a space only if it was a space. -/
theorem toLowerC_eq_space_iff (c : Char) : toLowerC c = ' ' ↔ c = ' ' := by
  constructor
  · intro h
    cases hf : caseTable.find? (fun p => p.2 = c) with
    | none => rw [toLowerC_of_none hf] at h; exact h
    | some p =>
      rw [toLowerC_of_some hf] at h
      have hmem := List.mem_of_find?_eq_some hf
      have := List.all_eq_true.mp caseTable_not_ws p hmem
      rw [h] at this
      simp [isWS] at this
  · intro h; subst h; rfl

/-- Uppercasing maps a character to a space only if it was a space. -/
theorem toUpperC_eq_space_iff (c : Char) : toUpperC c = ' ' ↔ c = ' ' := by
  constructor
  · intro h
    cases hf : caseTable.find? (fun p => p.1 = c) with
    | none => rw [toUpperC_of_none hf] at h; exact h
    | some p =>
      rw [toUpperC_of_some hf] at h
      have hmem := List.mem_of_find?_eq_some hf
      have := List.all_eq_true.mp caseTable_not_ws p hmem
      rw [h] at this
      simp [isWS] at this
  · intro h; subst h; rfl

-- ### Split / join lemmas

/-- Splitting never produces the empty list of pieces. -/
theorem splitOnChar_ne_nil (c : Char) (s : Str) : splitOnChar c s ≠ [] := by
  cases s with
  | nil => simp [splitOnChar]
  | cons x xs =>
    rw [splitOnChar]
    by_cases h : x = c
    · simp [h]
    · rw [if_neg h]
      cases splitOnChar c xs <;> simp

/-- Joining the pieces of a split restores the original string. -/
theorem joinChar_splitOnChar (c : Char) (s : Str) :
    joinChar c (splitOnChar c s) = s := by
  induction s with
  | nil => rfl
  | cons x xs ih =>
    rw [splitOnChar]
    by_cases h : x = c
    · rw [if_pos h]
      cases hs : splitOnChar c xs with
      | nil => exact absurd hs (splitOnChar_ne_nil c xs)
      | cons w ws =>
        rw [hs] at ih
        show ([] : Str) ++ c :: joinChar c (w :: ws) = x :: xs
        rw [List.nil_append, ih, h]
    · rw [if_neg h]
      cases hs : splitOnChar c xs with
      | nil => exact absurd hs (splitOnChar_ne_nil c xs)
      | cons w ws =>
        rw [hs] at ih
        cases ws with
        | nil =>
          show x :: w = x :: xs
          rw [show joinChar c [w] = w from rfl] at ih
          rw [ih]
        | cons w2 ws2 =>
          show x :: (w ++ c :: joinChar c (w2 :: ws2)) = x :: xs
          exact congrArg (x :: ·) ih

/-- No piece of a split contains the separator. -/
theorem not_mem_splitOnChar (c : Char) (s : Str) :
    ∀ w ∈ splitOnChar c s, c ∉ w := by
  induction s with
  | nil =>
    intro w hw
    simp [splitOnChar] at hw
    simp [hw]
  | cons x xs ih =>
    intro w hw
    rw [splitOnChar] at hw
    by_cases h : x = c
    · rw [if_pos h] at hw
      rcases List.mem_cons.mp hw with h1 | h2
      · simp [h1]
      · exact ih w h2
    · rw [if_neg h] at hw
      cases hs : splitOnChar c xs with
      | nil => exact absurd hs (splitOnChar_ne_nil c xs)
      | cons w0 ws =>
        rw [hs] at hw
        rcases List.mem_cons.mp hw with h1 | h2
        · subst h1
          intro hc
          rcases List.mem_cons.mp hc with h3 | h4
          · exact h h3.symm
          · exact ih w0 (hs ▸ List.mem_cons_self w0 ws) h4
        · exact ih w (hs ▸ List.mem_cons_of_mem w0 h2)

/-- Splitting commutes with mapping a separator-preserving character map. -/
theorem splitOnChar_map (c : Char) (f : Char → Char)
    (hf : ∀ x, f x = c ↔ x = c) (s : Str) :
    splitOnChar c (s.map f) = (splitOnChar c s).map (List.map f) := by
  induction s with
  | nil => rfl
  | cons x xs ih =>
    rw [List.map_cons, splitOnChar, splitOnChar]
    by_cases h : x = c
    · rw [if_pos h, if_pos ((hf x).mpr h), ih, List.map_cons]
      rfl
    · rw [if_neg h, if_neg (fun hc => h ((hf x).mp hc)), ih]
      cases hs : splitOnChar c xs with
      | nil => exact absurd hs (splitOnChar_ne_nil c xs)
      | cons w ws => rfl

/-- Word capitalisation preserves length. -/
theorem capWord_length (w : Str) : (capWord w).length = w.length := by
  cases w with
  | nil => rfl
  | cons ch rest => simp [capWord, lowerS]

/-- Joining piecewise length-preserving maps preserves length. -/
theorem joinChar_length_map (c : Char) (g : Str → Str)
    (hg : ∀ w, (g w).length = w.length) (l : List Str) :
    (joinChar c (l.map g)).length = (joinChar c l).length := by
  induction l with
  | nil => rfl
  | cons w ws ih =>
    cases ws with
    | nil => simpa using hg w
    | cons w2 ws2 =>
      show ((g w) ++ c :: joinChar c ((w2 :: ws2).map g)).length
        = (w ++ c :: joinChar c (w2 :: ws2)).length
      rw [List.length_append, List.length_append, hg w]
      simp only [List.length_cons]
      rw [ih]

/-- Title-casing preserves length. -/
theorem titleCase_length (s : Str) : (titleCase s).length = s.length := by
  rw [titleCase, joinChar_length_map ' ' capWord capWord_length,
      joinChar_splitOnChar]

/-- Word capitalisation produces no new spaces. -/
theorem capWord_no_space {w : Str} (hw : ' ' ∉ w) : ' ' ∉ capWord w := by
  cases w with
  | nil => simp [capWord]
  | cons ch rest =>
    rw [capWord]
    intro hc
    rcases List.mem_cons.mp hc with h1 | h2
    · exact hw (List.mem_cons.mpr (Or.inl ((toUpperC_eq_space_iff ch).mp h1.symm).symm))
    · rw [lowerS] at h2
      obtain ⟨x, hx, hxe⟩ := List.mem_map.mp h2
      exact hw (List.mem_cons.mpr (Or.inr (((toLowerC_eq_space_iff x).mp hxe) ▸ hx)))

/-- Splitting a separator-free string yields a single piece. -/
theorem splitOnChar_eq_self {c : Char} {w : Str} (hw : c ∉ w) :
    splitOnChar c w = [w] := by
  induction w with
  | nil => rfl
  | cons x xs ih =>
    rw [splitOnChar,
        if_neg (fun (h : x = c) => hw (List.mem_cons.mpr (Or.inl h.symm))),
        ih (fun h => hw (List.mem_cons_of_mem x h))]

/-- Splitting after appending a separator splits at that separator. -/
theorem splitOnChar_append {c : Char} {w t : Str} (hw : c ∉ w) :
    splitOnChar c (w ++ c :: t) = w :: splitOnChar c t := by
  induction w with
  | nil => rw [List.nil_append, splitOnChar, if_pos rfl]
  | cons x xs ih =>
    rw [List.cons_append, splitOnChar,
        if_neg (fun (h : x = c) => hw (List.mem_cons.mpr (Or.inl h.symm))),
        ih (fun h => hw (List.mem_cons_of_mem x h))]

/-- Splitting a join of separator-free pieces restores the pieces. -/
theorem splitOnChar_joinChar {c : Char} {l : List Str} (hl : ∀ w ∈ l, c ∉ w)
    (hne : l ≠ []) : splitOnChar c (joinChar c l) = l := by
  induction l with
  | nil => exact absurd rfl hne
  | cons w ws ih =>
    cases ws with
    | nil =>
      show splitOnChar c w = [w]
      exact splitOnChar_eq_self (hl w (List.mem_cons_self w []))
    | cons w2 ws2 =>
      show splitOnChar c (w ++ c :: joinChar c (w2 :: ws2)) = w :: w2 :: ws2
      rw [splitOnChar_append (hl w (List.mem_cons_self w (w2 :: ws2)))]
      congr 1
      exact ih (fun x hx => hl x (List.mem_cons_of_mem w hx)) (by simp)

-- ### Title-case shape and idempotence

/-- Shape of a capitalised word: no leading lowercase, no uppercase later. -/
def shapedWord (w : Str) : Bool :=
  match w with
  | [] => true
  | c :: rest => !isLowerC c && rest.all (fun x => !isUpperC x)

/-- Shape of a formatted string: every space-separated word is shaped. -/
def titleShaped (s : Str) : Bool := (splitOnChar ' ' s).all shapedWord

/-- Capitalised words are shaped. -/
theorem capWord_shaped (w : Str) : shapedWord (capWord w) = true := by
  cases w with
  | nil => rfl
  | cons c rest =>
    show (!isLowerC (toUpperC c) && (lowerS rest).all (fun x => !isUpperC x)) = true
    simp only [isLowerC_toUpperC, Bool.not_false, Bool.true_and, lowerS,
      List.all_map, List.all_eq_true, Function.comp]
    intro x _
    simp [isUpperC_toLowerC]

/-- Splitting a title-cased string recovers the capitalised pieces. -/
theorem splitOnChar_titleCase (s : Str) :
    splitOnChar ' ' (titleCase s) = (splitOnChar ' ' s).map capWord := by
  rw [titleCase]
  apply splitOnChar_joinChar
  · intro w hw
    obtain ⟨v, hv, hve⟩ := List.mem_map.mp hw
    exact hve ▸ capWord_no_space (not_mem_splitOnChar ' ' s v hv)
  · intro h
    exact splitOnChar_ne_nil ' ' s (List.map_eq_nil_iff.mp h)

/-- Title-cased strings are shaped. -/
theorem titleShaped_titleCase (s : Str) : titleShaped (titleCase s) = true := by
  rw [titleShaped, splitOnChar_titleCase, List.all_map, List.all_eq_true]
  intro w _
  exact capWord_shaped w

/-- Lowercasing a string is idempotent. -/
theorem lowerS_lowerS (s : Str) : lowerS (lowerS s) = lowerS s := by
  show (s.map toLowerC).map toLowerC = s.map toLowerC
  rw [List.map_map]
  apply List.map_congr_left
  intro x _
  exact toLowerC_toLowerC x

/-- Capitalising a word twice equals capitalising it once. -/
theorem capWord_capWord (w : Str) : capWord (capWord w) = capWord w := by
  cases w with
  | nil => rfl
  | cons c rest =>
    show toUpperC (toUpperC c) :: lowerS (lowerS rest) = toUpperC c :: lowerS rest
    rw [toUpperC_toUpperC, lowerS_lowerS]

/-- Capitalising a lowercased word equals capitalising the word. -/
theorem capWord_lowerS (w : Str) : capWord (lowerS w) = capWord w := by
  cases w with
  | nil => rfl
  | cons c rest =>
    show toUpperC (toLowerC c) :: lowerS (lowerS rest) = toUpperC c :: lowerS rest
    rw [toUpperC_toLowerC, lowerS_lowerS]

/-- Title-casing is idempotent. -/
theorem titleCase_titleCase (s : Str) : titleCase (titleCase s) = titleCase s := by
  calc titleCase (titleCase s)
      = joinChar ' ' ((splitOnChar ' ' (titleCase s)).map capWord) := rfl
    _ = joinChar ' ' (((splitOnChar ' ' s).map capWord).map capWord) := by
        rw [splitOnChar_titleCase]
    _ = joinChar ' ' ((splitOnChar ' ' s).map capWord) := by
        rw [List.map_map]
        congr 1
        apply List.map_congr_left
        intro w _
        exact capWord_capWord w

/-- Splitting commutes with lowercasing. -/
theorem splitOnChar_lowerS (s : Str) :
    splitOnChar ' ' (lowerS s) = (splitOnChar ' ' s).map lowerS := by
  exact splitOnChar_map ' ' toLowerC toLowerC_eq_space_iff s

/-- Title-casing only depends on the lowercased string. -/
theorem titleCase_lowerS (s : Str) : titleCase (lowerS s) = titleCase s := by
  rw [titleCase, splitOnChar_lowerS, List.map_map]
  congr 1
  apply List.map_congr_left
  intro w _
  exact capWord_lowerS w

-- ### Trim lemmas

/-- Dropping a prefix predicate twice equals dropping it once. -/
theorem dropWhile_dropWhile (p : Char → Bool) (l : Str) :
    List.dropWhile p (List.dropWhile p l) = List.dropWhile p l := by
  induction l with
  | nil => rfl
  | cons x xs ih =>
    rw [List.dropWhile_cons]
    by_cases h : p x = true
    · rw [if_pos h]; exact ih
    · rw [if_neg h, List.dropWhile_cons, if_neg h]

/-- The head surviving a dropWhile fails the predicate. -/
theorem dropWhile_head_false {p : Char → Bool} {l t : Str} {a : Char}
    (h : List.dropWhile p l = a :: t) : p a = false := by
  induction l with
  | nil => simp [List.dropWhile] at h
  | cons x xs ih =>
    rw [List.dropWhile_cons] at h
    by_cases hp : p x = true
    · rw [if_pos hp] at h; exact ih h
    · rw [if_neg hp] at h
      cases h
      exact Bool.eq_false_iff.mpr hp

/-- A dropWhile result is a suffix of the original list. -/
theorem dropWhile_suffix_ex (p : Char → Bool) (l : Str) :
    ∃ r, r ++ List.dropWhile p l = l := by
  induction l with
  | nil => exact ⟨[], rfl⟩
  | cons x xs ih =>
    rw [List.dropWhile_cons]
    by_cases h : p x = true
    · rw [if_pos h]
      obtain ⟨r, hr⟩ := ih
      exact ⟨x :: r, by rw [List.cons_append, hr]⟩
    · rw [if_neg h]; exact ⟨[], rfl⟩

/-- Trimming is idempotent. -/
theorem trimS_trimS (s : Str) : trimS (trimS s) = trimS s := by
  have hstep : (trimS s).dropWhile isWS = trimS s := by
    cases ht : trimS s with
    | nil => rfl
    | cons a t2 =>
      have ha : isWS a = false := by
        obtain ⟨r, hr⟩ := dropWhile_suffix_ex isWS (s.dropWhile isWS).reverse
        have hu : List.dropWhile isWS s = trimS s ++ r.reverse := by
          have h2 := congrArg List.reverse hr
          rw [List.reverse_append, List.reverse_reverse] at h2
          exact h2.symm
        rw [ht] at hu
        exact dropWhile_head_false hu
      rw [List.dropWhile_cons, if_neg (by rw [ha]; exact Bool.false_ne_true)]
  show (((trimS s).dropWhile isWS).reverse.dropWhile isWS).reverse = trimS s
  rw [hstep]
  show ((((s.dropWhile isWS).reverse.dropWhile isWS)).reverse.reverse.dropWhile
    isWS).reverse = trimS s
  rw [List.reverse_reverse, dropWhile_dropWhile]
  rfl

-- ### Substring containment

/-- Correctness of the `includes` model: containment iff a decomposition. -/
theorem containsSubstrS_iff (s pat : Str) :
    containsSubstrS s pat = true ↔ ∃ l r, s = l ++ pat ++ r := by
  rw [containsSubstrS, List.any_eq_true]
  constructor
  · rintro ⟨i, _, hp⟩
    rw [List.isPrefixOf_iff_prefix] at hp
    obtain ⟨t, ht⟩ := hp
    exact ⟨s.take i, t, by rw [List.append_assoc, ht, List.take_append_drop]⟩
  · rintro ⟨l, r, rfl⟩
    refine ⟨l.length, List.mem_range.mpr ?_, ?_⟩
    · rw [List.length_append, List.length_append]
      omega
    · rw [List.isPrefixOf_iff_prefix, List.append_assoc, List.drop_left]
      exact ⟨r, rfl⟩

-- ### gen-agent definitions (apps/agents/src/gen-agent/graph.ts)

namespace GenAgent

/-- Association-list lookup with string keys (JS object property access). -/
def lookupStr (k : Str) : List (Str × Str) → Option Str
  | [] => none
  | (k2, v) :: rest => if k2 = k then some v else lookupStr k rest

/-- The abbreviation table of `formatCityName`. -/
def abbreviations : List (Str × Str) :=
  [(S "nyc", S "New York"), (S "ny", S "New York"), (S "la", S "Los Angeles"),
   (S "sf", S "San Francisco"), (S "dc", S "Washington DC"),
   (S "atl", S "Atlanta"), (S "chi", S "Chicago"),
   (S "philly", S "Philadelphia"), (S "vegas", S "Las Vegas"),
   (S "miami", S "Miami"), (S "boston", S "Boston")]

/-- `formatCityName`: abbreviation expansion, else per-word title-casing. -/
def formatCityName (city : Str) : Str :=
  match lookupStr (trimS (lowerS city)) abbreviations with
  | some v => v
  | none => titleCase city

/-- The non-city filter words of `extractCityFromPattern`. -/
def invalidWords : List Str :=
  [S "weather", S "temperature", S "temp", S "forecast", S "today",
   S "tomorrow", S "like", S "the", S "is", S "very", S "show", S "me",
   S "what", S "how", S "there", S "here", S "now", S "currently", S "right",
   S "good", S "bad", S "nice"]

/-- The sentence-starter skip list of the proper-noun scan. -/
def skipWords : List Str :=
  [S "Weather", S "Temperature", S "Today", S "Tomorrow", S "What", S "How",
   S "The", S "Is", S "Show", S "Me", S "Give", S "Tell", S "Please",
   S "Thanks", S "Hello", S "Hi"]

/-- JS `replace(/[?.!]/g, "")`. -/
def stripPunct (s : Str) : Str :=
  s.filter (fun ch => !(ch = '?' || ch = '.' || ch = '!'))

/-- JS `replace(/,$/, "")`: drop one trailing comma. -/
def stripTrailingComma (s : Str) : Str :=
  match s.getLast? with
  | some ch => if ch = ',' then s.dropLast else s
  | none => s

/-- Post-processing of one regex capture inside `extractCityFromPattern`:
trim, strip punctuation and a trailing comma, cut at a comma, and apply the
length / stop-word guard before formatting. -/
def patternCity (m : Str) : Str :=
  if (stripTrailingComma (stripPunct (trimS m))).contains ',' then
    trimS ((splitOnChar ',' (stripTrailingComma (stripPunct (trimS m)))).headI)
  else stripTrailingComma (stripPunct (trimS m))

/-- Guarded formatting of the processed capture. -/
def processPatternMatch (m : Str) : Option Str :=
  if 1 < (patternCity m).length ∧ (patternCity m).length < 50 ∧
      invalidWords.contains (lowerS (patternCity m)) = false
  then some (formatCityName (patternCity m)) else none

/-- Oracle for the JS regex engine inside `extractCityFromPattern`: the
`match[1]` capture of each of the ordered patterns, and the matches of the
capitalised proper-noun scan. -/
structure PatternOracle where
  patternResults : List (Option Str)
  properNouns : List Str

/-- Guard of the proper-noun fallback scan. -/
def nounOK (noun : Str) : Bool :=
  let cleanNoun := trimS noun
  !(skipWords.contains cleanNoun) && decide (2 < cleanNoun.length)
    && decide (cleanNoun.length < 30)

/-- `extractCityFromPattern`: first pattern capture surviving the guard, else
first proper noun surviving the skip list, else the fixed default. -/
def extractCityFromPattern (o : PatternOracle) : Str :=
  match (o.patternResults.filterMap
      (fun om => om.bind processPatternMatch)).head? with
  | some city => city
  | none =>
    match o.properNouns.find? nounOK with
    | some noun => formatCityName (trimS noun)
    | none => S "New York"

/-- `extractCityWithLLM`: the completion capability is the oracle (`none`
models a thrown call); the guard and formatting are the code's. -/
def extractCityWithLLM (llmContent : Option Str) : Option Str :=
  match llmContent with
  | none => none
  | some raw =>
    if trimS raw ≠ [] ∧ trimS raw ≠ S "unknown" ∧
        1 < (trimS raw).length ∧ (trimS raw).length < 50
    then some (formatCityName (trimS raw)) else none

/-- `validateCityWithSearch`: the search call and its regex confirmation are
the oracle (`none` models a thrown search). -/
def validateCityWithSearch (confirms : Option Bool) (cityCandidate : Str) :
    Option Str :=
  match confirms with
  | none => none
  | some b => if b then some (formatCityName cityCandidate) else none

/-- `extractCityFromSearch`: the search-result captures are the oracle; the
candidate guard and formatting are the code's. -/
def extractCityFromSearch (candidates : Option (List Str)) : Option Str :=
  match candidates with
  | none => none
  | some l =>
    match l.find? (fun m => decide (2 < (trimS m).length)
        && decide ((trimS m).length < 30)) with
    | some m => some (formatCityName (trimS m))
    | none => none

/-- The regional hint table of `getSmartFallbackCity`, in source order. -/
def regionalHints : List (Str × List Str) :=
  [(S "New York", [S "east coast", S "northeast", S "ny", S "nyc",
      S "manhattan", S "brooklyn"]),
   (S "Los Angeles", [S "west coast", S "california", S "la", S "hollywood",
      S "beverly hills"]),
   (S "Chicago", [S "midwest", S "illinois", S "windy city"]),
   (S "Miami", [S "florida", S "south florida", S "southeast"]),
   (S "Seattle", [S "pacific northwest", S "washington", S "tech"]),
   (S "London", [S "uk", S "england", S "britain", S "british"]),
   (S "Paris", [S "france", S "french", S "europe"]),
   (S "Tokyo", [S "japan", S "japanese", S "asia"]),
   (S "Sydney", [S "australia", S "aussie", S "down under"]),
   (S "Mumbai", [S "india", S "indian", S "bollywood"]),
   (S "Dubai", [S "uae", S "middle east", S "emirates"])]

/-- Morning fallback rotation cities. -/
def businessCities : List Str :=
  [S "New York", S "London", S "Tokyo", S "Singapore", S "Frankfurt"]

/-- Evening fallback rotation cities. -/
def entertainmentCities : List Str :=
  [S "Los Angeles", S "Las Vegas", S "Miami", S "Barcelona", S "Sydney"]

/-- Default fallback rotation cities. -/
def globalCities : List Str :=
  [S "New York", S "London", S "Paris", S "Tokyo", S "Sydney",
   S "Los Angeles"]

/-- JS `list[Math.floor(random * list.length)]`; `random` is the oracle. -/
def randPick (l : List Str) (r : ℚ) : Str :=
  l.getD (Int.toNat ⌊r * (l.length : ℚ)⌋) (S "New York")

/-- `getSmartFallbackCity`: regional hint lookup, else an hour-keyed rotation
seeded by the random oracle. -/
def getSmartFallbackCity (message : Str) (hour : Nat) (r : ℚ) : Str :=
  match regionalHints.find?
      (fun p => p.2.any (fun hint => containsSubstrS (lowerS message) hint)) with
  | some p => p.1
  | none =>
    if 6 ≤ hour ∧ hour < 12 then randPick businessCities r
    else if 18 ≤ hour ∧ hour < 24 then randPick entertainmentCities r
    else randPick globalCities r

/-- Oracle bundle for one `extractCityFromMessage` run: regex captures, the
`config` presence flag, the completion and search capabilities, and the
wall-clock / randomness reads of the heuristic fallback. -/
structure ResolveOracle where
  pattern : PatternOracle
  hasConfig : Bool
  llmContent : Option Str
  validateConfirms : Option Bool
  searchCandidates : Option (List Str)
  hour : Nat
  rand : ℚ

/-- Strategy 2 of `extractCityFromMessage`: LLM extraction validated by
search; yields a city only when validation confirms. -/
def strategyLLM (o : ResolveOracle) : Option Str :=
  if o.hasConfig then
    match extractCityWithLLM o.llmContent with
    | some llmExtracted =>
      if llmExtracted ≠ [] ∧ llmExtracted ≠ S "unknown" then
        validateCityWithSearch o.validateConfirms llmExtracted
      else none
    | none => none
  else none

/-- Strategy 3 of `extractCityFromMessage`: search-based discovery. -/
def strategySearch (o : ResolveOracle) : Option Str :=
  if o.hasConfig then extractCityFromSearch o.searchCandidates else none

/-- `extractCityFromMessage`: the full strategy cascade of the gen-agent
resolver. -/
def extractCityFromMessage (message : Str) (o : ResolveOracle) : Str :=
  match strategyLLM o with
  | some validated => validated
  | none =>
    match strategySearch o with
    | some searchExtracted => searchExtracted
    | none =>
      if extractCityFromPattern o.pattern ≠ [] ∧
          extractCityFromPattern o.pattern ≠ S "New York"
      then extractCityFromPattern o.pattern
      else getSmartFallbackCity message o.hour o.rand

end GenAgent

-- ### Shared weather record shape

/-- The `WeatherData` record pushed to the UI (numbers are JS numbers). -/
structure WeatherData where
  id : Nat
  city : Str
  country : Str
  temp : ℚ
  condition : Str
  humidity : ℚ
  windSpeed : ℚ
  icon : Str
deriving DecidableEq

/-- One entry of the structured-completion weather response (Zod schema). -/
structure WeatherItem where
  city : Str
  country : Str
  temp : ℚ
  condition : Str
  humidity : ℚ
  windSpeed : ℚ
  icon : Str
deriving DecidableEq

/-- Capability invocations observable during one turn. -/
inductive CapEvent
  | classifyStructured
  | chatCompletion
  | searchCall
deriving DecidableEq

namespace GenAgent

/-- Association-list lookup with list values (JS object property access). -/
def lookupStrL (k : Str) : List (Str × List Str) → Option (List Str)
  | [] => none
  | (k2, v) :: rest => if k2 = k then some v else lookupStrL k rest

/-- The static nearby-cities table of `weatherNode`, in source order. -/
def nearbyCitiesMap : List (Str × List Str) :=
  [(S "chennai", [S "Mumbai", S "Bangalore", S "Hyderabad", S "Kolkata"]),
   (S "mumbai", [S "Delhi", S "Bangalore", S "Chennai", S "Pune"]),
   (S "delhi", [S "Noida", S "Gurgaon", S "Jaipur", S "Chandigarh"]),
   (S "bangalore", [S "Chennai", S "Mysore", S "Hyderabad", S "Mumbai"]),
   (S "kolkata", [S "Bhubaneswar", S "Patna", S "Guwahati", S "Delhi"]),
   (S "hyderabad", [S "Bangalore", S "Chennai", S "Mumbai", S "Pune"]),
   (S "pune", [S "Mumbai", S "Nashik", S "Aurangabad", S "Bangalore"]),
   (S "ahmedabad", [S "Mumbai", S "Surat", S "Vadodara", S "Pune"]),
   (S "jaipur", [S "Delhi", S "Jodhpur", S "Udaipur", S "Agra"]),
   (S "new york", [S "Boston", S "Philadelphia", S "Washington DC", S "Chicago"]),
   (S "los angeles", [S "San Francisco", S "San Diego", S "Las Vegas", S "Phoenix"]),
   (S "chicago", [S "Detroit", S "Milwaukee", S "Indianapolis", S "St Louis"]),
   (S "houston", [S "Dallas", S "Austin", S "San Antonio", S "New Orleans"]),
   (S "miami", [S "Orlando", S "Tampa", S "Jacksonville", S "Atlanta"]),
   (S "boston", [S "New York", S "Hartford", S "Providence", S "Portland"]),
   (S "seattle", [S "Portland", S "Vancouver", S "San Francisco", S "Spokane"]),
   (S "denver", [S "Salt Lake City", S "Phoenix", S "Albuquerque", S "Colorado Springs"]),
   (S "atlanta", [S "Charlotte", S "Nashville", S "Birmingham", S "Jacksonville"]),
   (S "philadelphia", [S "New York", S "Baltimore", S "Washington DC", S "Pittsburgh"]),
   (S "phoenix", [S "Tucson", S "Las Vegas", S "Albuquerque", S "San Diego"]),
   (S "san francisco", [S "Los Angeles", S "Sacramento", S "San Jose", S "Oakland"]),
   (S "washington dc", [S "Baltimore", S "Richmond", S "Philadelphia", S "Norfolk"]),
   (S "dallas", [S "Houston", S "Austin", S "Oklahoma City", S "Fort Worth"]),
   (S "detroit", [S "Chicago", S "Cleveland", S "Toledo", S "Grand Rapids"]),
   (S "las vegas", [S "Los Angeles", S "Phoenix", S "Reno", S "Salt Lake City"]),
   (S "london", [S "Manchester", S "Birmingham", S "Liverpool", S "Edinburgh"]),
   (S "paris", [S "Lyon", S "Marseille", S "Toulouse", S "Nice"]),
   (S "berlin", [S "Munich", S "Hamburg", S "Frankfurt", S "Cologne"]),
   (S "madrid", [S "Barcelona", S "Valencia", S "Seville", S "Bilbao"]),
   (S "rome", [S "Milan", S "Naples", S "Florence", S "Venice"]),
   (S "amsterdam", [S "Rotterdam", S "Utrecht", S "The Hague", S "Brussels"]),
   (S "barcelona", [S "Madrid", S "Valencia", S "Seville", S "Bilbao"]),
   (S "milan", [S "Rome", S "Turin", S "Florence", S "Venice"]),
   (S "munich", [S "Berlin", S "Frankfurt", S "Stuttgart", S "Vienna"]),
   (S "manchester", [S "London", S "Liverpool", S "Leeds", S "Birmingham"]),
   (S "tokyo", [S "Osaka", S "Kyoto", S "Yokohama", S "Nagoya"]),
   (S "beijing", [S "Shanghai", S "Guangzhou", S "Shenzhen", S "Tianjin"]),
   (S "shanghai", [S "Beijing", S "Hangzhou", S "Suzhou", S "Nanjing"]),
   (S "singapore", [S "Kuala Lumpur", S "Bangkok", S "Jakarta", S "Manila"]),
   (S "hong kong", [S "Macau", S "Guangzhou", S "Shenzhen", S "Taipei"]),
   (S "seoul", [S "Busan", S "Incheon", S "Daegu", S "Daejeon"]),
   (S "bangkok", [S "Chiang Mai", S "Phuket", S "Pattaya", S "Singapore"]),
   (S "dubai", [S "Abu Dhabi", S "Doha", S "Kuwait City", S "Riyadh"]),
   (S "sydney", [S "Melbourne", S "Brisbane", S "Perth", S "Adelaide"]),
   (S "melbourne", [S "Sydney", S "Adelaide", S "Canberra", S "Geelong"]),
   (S "brisbane", [S "Sydney", S "Gold Coast", S "Melbourne", S "Cairns"]),
   (S "perth", [S "Adelaide", S "Darwin", S "Melbourne", S "Sydney"]),
   (S "toronto", [S "Montreal", S "Ottawa", S "Vancouver", S "Calgary"]),
   (S "vancouver", [S "Seattle", S "Calgary", S "Toronto", S "Victoria"]),
   (S "montreal", [S "Toronto", S "Quebec City", S "Ottawa", S "Halifax"]),
   (S "calgary", [S "Vancouver", S "Edmonton", S "Toronto", S "Winnipeg"]),
   (S "sao paulo", [S "Rio de Janeiro", S "Brasilia", S "Salvador", S "Fortaleza"]),
   (S "buenos aires", [S "Montevideo", S "Santiago", S "Cordoba", S "Rosario"]),
   (S "lima", [S "Arequipa", S "Trujillo", S "Chiclayo", S "Cusco"]),
   (S "cairo", [S "Alexandria", S "Giza", S "Luxor", S "Aswan"]),
   (S "johannesburg", [S "Cape Town", S "Durban", S "Pretoria", S "Port Elizabeth"]),
   (S "lagos", [S "Abuja", S "Kano", S "Ibadan", S "Port Harcourt"]),
   (S "default", [S "New York", S "London", S "Tokyo", S "Sydney", S "Paris"])]

/-- The region membership table of `detectRegion`, in source order. -/
def regionsTable : List (Str × List Str) :=
  [(S "north_america",
    [S "new york", S "los angeles", S "chicago", S "toronto", S "vancouver",
     S "montreal", S "dallas", S "miami", S "boston", S "seattle",
     S "san francisco", S "phoenix", S "atlanta", S "philadelphia",
     S "detroit", S "denver"]),
   (S "europe",
    [S "london", S "paris", S "berlin", S "madrid", S "rome", S "amsterdam",
     S "barcelona", S "vienna", S "prague", S "stockholm", S "copenhagen",
     S "oslo", S "helsinki", S "dublin", S "brussels"]),
   (S "asia",
    [S "tokyo", S "beijing", S "shanghai", S "singapore", S "hong kong",
     S "seoul", S "bangkok", S "mumbai", S "delhi", S "bangalore",
     S "manila", S "jakarta", S "kuala lumpur"]),
   (S "oceania",
    [S "sydney", S "melbourne", S "brisbane", S "perth", S "adelaide",
     S "auckland", S "wellington"]),
   (S "africa",
    [S "cairo", S "johannesburg", S "cape town", S "lagos", S "casablanca",
     S "nairobi"]),
   (S "south_america",
    [S "sao paulo", S "buenos aires", S "lima", S "bogota", S "santiago",
     S "rio de janeiro"])]

/-- `detectRegion`: region of a city by table membership, default global. -/
def detectRegion (city : Str) : Str :=
  match regionsTable.find? (fun p => p.2.contains (lowerS city)) with
  | some p => p.1
  | none => S "global"

/-- The regional default table of `getRegionalDefaults`. -/
def regionalDefaultsTable : List (Str × List Str) :=
  [(S "north_america", [S "New York", S "Los Angeles", S "Chicago", S "Toronto"]),
   (S "europe", [S "London", S "Paris", S "Berlin", S "Madrid"]),
   (S "asia", [S "Tokyo", S "Singapore", S "Hong Kong", S "Seoul"]),
   (S "oceania", [S "Sydney", S "Melbourne", S "Auckland", S "Brisbane"]),
   (S "africa", [S "Cairo", S "Johannesburg", S "Cape Town", S "Lagos"]),
   (S "south_america", [S "Sao Paulo", S "Buenos Aires", S "Lima", S "Santiago"]),
   (S "global", [S "New York", S "London", S "Tokyo", S "Sydney"])]

/-- `getRegionalDefaults`: defaults for a region, else the global list. -/
def getRegionalDefaults (region : Str) : List Str :=
  (lookupStrL region regionalDefaultsTable).getD
    [S "New York", S "London", S "Tokyo", S "Sydney"]

/-- One conditional push of `discoverNearbyCities`: appended only when not
already present (exact), not the main city (case-insensitive) and below the
length cap. -/
def pushCity (mainLower : Str) (cap : Nat) (acc : List Str) (f : Str) :
    List Str :=
  if acc.contains f = false ∧ lowerS f ≠ mainLower ∧ acc.length < cap
  then acc ++ [f] else acc

/-- `discoverNearbyCities`: the regex capture texts from the search are the
oracle (`cityTexts`); splitting, trimming, the length filter, formatting,
de-duplication and the regional backfill are the code's. -/
def discoverCandidates (cityTexts : List Str) : List Str :=
  cityTexts.flatMap (fun t =>
    ((splitOnChar ',' t).map trimS).filter
      (fun c => decide (2 < c.length) && decide (c.length < 30)))

/-- Phase 1 of `discoverNearbyCities`: push each formatted candidate. -/
def discoverPhase1 (mainCity : Str) (cityTexts : List Str) : List Str :=
  (discoverCandidates cityTexts).foldl
    (fun acc c => pushCity (lowerS mainCity) 6 acc (formatCityName c)) []

/-- Phase 2 of `discoverNearbyCities`: regional backfill below 3 results. -/
def discoverPhase2 (mainCity : Str) (cityTexts : List Str) : List Str :=
  if (discoverPhase1 mainCity cityTexts).length < 3 then
    (getRegionalDefaults (detectRegion mainCity)).foldl
      (fun acc c => pushCity (lowerS mainCity) 4 acc c)
      (discoverPhase1 mainCity cityTexts)
  else discoverPhase1 mainCity cityTexts

/-- Full `discoverNearbyCities`: at most 4 results returned. -/
def discoverNearbyCities (mainCity : Str) (cityTexts : List Str) : List Str :=
  (discoverPhase2 mainCity cityTexts).take 4

/-- Oracle for the locality expansion: whether the discovery search call
succeeds, and the capture texts it produces. -/
structure ExpandOracle where
  discoverWorks : Bool
  cityTexts : List Str

/-- The `allCities` list built by `weatherNode` (lines 175-191): static
table, else dynamic discovery, else the default list; main city first. -/
def weatherNodeCities (mainCity : Str) (o : ExpandOracle) : List Str :=
  match lookupStrL (lowerS mainCity) nearbyCitiesMap with
  | some nearby => mainCity :: nearby.take 4
  | none =>
    mainCity ::
      (if o.discoverWorks then
        (if 0 < (discoverNearbyCities mainCity o.cityTexts).length
         then discoverNearbyCities mainCity o.cityTexts
         else (lookupStrL (S "default") nearbyCitiesMap).getD [])
       else (lookupStrL (S "default") nearbyCitiesMap).getD []).take 4

/-- `detectCountry`: country of a city by static tables. -/
def detectCountry (city : Str) : Str :=
  let cityLower := lowerS city
  let indianCities : List Str :=
    [S "chennai", S "mumbai", S "delhi", S "bangalore", S "kolkata",
     S "hyderabad", S "pune", S "ahmedabad", S "jaipur", S "lucknow",
     S "noida", S "gurgaon", S "chandigarh", S "mysore", S "bhubaneswar",
     S "patna", S "guwahati"]
  let ukCities : List Str :=
    [S "london", S "manchester", S "birmingham", S "liverpool",
     S "edinburgh", S "dublin"]
  let usCities : List Str :=
    [S "new york", S "los angeles", S "chicago", S "boston", S "miami",
     S "seattle", S "washington dc", S "philadelphia", S "san francisco"]
  if indianCities.contains cityLower then S "India"
  else if ukCities.contains cityLower then S "UK"
  else if usCities.contains cityLower then S "USA"
  else S "Unknown"

/-- The condition/icon pairs of `createFallbackWeatherData`. -/
def fallbackConditions : List (Str × Str) :=
  [(S "Sunny", S "sunny"), (S "Partly Cloudy", S "cloudy"),
   (S "Cloudy", S "cloudy"), (S "Rainy", S "rainy")]

/-- `createFallbackWeatherData` (gen-agent): synthetic record from four
`Math.random()` reads, passed as the rational oracles `rCond rTemp rHum
rWind`. -/
def createFallbackWeatherData (city : Str) (id : Nat)
    (rCond rTemp rHum rWind : ℚ) : WeatherData :=
  let randomCondition :=
    fallbackConditions.getD (Int.toNat ⌊rCond * 4⌋) (S "Sunny", S "sunny")
  { id := id
    city := match city with | [] => [] | c :: rest => toUpperC c :: rest
    country := detectCountry city
    temp := ((⌊rTemp * 30⌋ + 60 : ℤ) : ℚ)
    condition := randomCondition.1
    humidity := ((⌊rHum * 40⌋ + 40 : ℤ) : ℚ)
    windSpeed := ((⌊rWind * 15⌋ + 5 : ℤ) : ℚ)
    icon := randomCondition.2 }

/-- `parseWeatherWithLLM` (gen-agent): the structured completion outcome is
the oracle (`none` models a thrown call).  On success the returned entries
are mapped with sequential ids; on failure every requested city gets a
synthetic fallback record.  The raw `searchResults` feed only the prompt. -/
def parseWeatherWithLLM (_searchResults : List (Str × Str)) (cities : List Str)
    (llmOutcome : Option (List WeatherItem)) (rand : Nat → ℚ × ℚ × ℚ × ℚ) :
    List WeatherData :=
  match llmOutcome with
  | some response =>
    response.enum.map (fun p =>
      { id := p.1 + 1
        city := p.2.city
        country := detectCountry p.2.city
        temp := p.2.temp
        condition := p.2.condition
        humidity := p.2.humidity
        windSpeed := p.2.windSpeed
        icon := p.2.icon })
  | none =>
    cities.enum.map (fun p =>
      createFallbackWeatherData p.2 (p.1 + 1)
        (rand p.1).1 (rand p.1).2.1 (rand p.1).2.2.1 (rand p.1).2.2.2)

/-- The keyword list of the intent-classification fallback. -/
def weatherKeywords : List Str :=
  [S "weather", S "temperature", S "forecast", S "climate", S "sunny",
   S "rainy", S "cloudy", S "cold", S "hot", S "degrees"]

/-- The keyword fallback classifier in `callModelNode`'s catch branch. -/
def classifyFallbackIntent (userMessage : Str) : Str :=
  if weatherKeywords.any (fun kw => containsSubstrS (lowerS userMessage) kw)
  then S "weather" else S "general"

/-- Oracle for one `callModelNode` run: the structured classification result
(`none` models a thrown call; the city is `none` when the model returned
null) and the oracles of the nested resolver. -/
structure ClassifyOracle where
  classification : Option (Str × Option Str)
  resolveO : ResolveOracle

/-- Capability events issued by one `extractCityFromMessage` run: one chat
completion when a config is present, a validation search when the LLM
produced a usable candidate, and a discovery search when strategy 2 yielded
nothing. -/
def resolveTrace (o : ResolveOracle) : List CapEvent :=
  (if o.hasConfig then
      CapEvent.chatCompletion ::
        (match extractCityWithLLM o.llmContent with
         | some llmExtracted =>
           if llmExtracted ≠ [] ∧ llmExtracted ≠ S "unknown"
           then [CapEvent.searchCall] else []
         | none => [])
    else []) ++
  (match strategyLLM o with
   | some _ => []
   | none => if o.hasConfig then [CapEvent.searchCall] else [])

/-- `callModelNode`: one structured-classification attempt; on success the
returned intent and city (resolving the city only when the model returned
none); on failure the keyword fallback intent and a resolver run.  The
second component lists the capability events of the turn. -/
def callModelNode (userMessage : Str) (o : ClassifyOracle) :
    (Str × Str) × List CapEvent :=
  match o.classification with
  | some (intent, extractedEntityCity) =>
    match extractedEntityCity with
    | some c => ((intent, c), [CapEvent.classifyStructured])
    | none =>
      ((intent, extractCityFromMessage userMessage o.resolveO),
        CapEvent.classifyStructured :: resolveTrace o.resolveO)
  | none =>
    ((classifyFallbackIntent userMessage,
        extractCityFromMessage userMessage o.resolveO),
      CapEvent.classifyStructured :: resolveTrace o.resolveO)

end GenAgent

-- ### react-agent definitions (apps/agents/src/react-agent/graph.ts)

namespace ReactAgent

/-- `detectCountry` (react-agent): country of a city by static tables. -/
def detectCountry (city : Str) : Str :=
  let cityLower := lowerS city
  let indianCities : List Str :=
    [S "chennai", S "mumbai", S "delhi", S "bangalore", S "kolkata",
     S "hyderabad", S "pune", S "ahmedabad", S "jaipur", S "lucknow",
     S "noida", S "gurgaon", S "chandigarh", S "mysore", S "bhubaneswar",
     S "patna", S "guwahati"]
  let ukCities : List Str :=
    [S "london", S "manchester", S "birmingham", S "liverpool",
     S "edinburgh", S "dublin"]
  let usCities : List Str :=
    [S "new york", S "los angeles", S "chicago", S "boston", S "miami",
     S "seattle", S "washington dc", S "philadelphia", S "san francisco"]
  if indianCities.contains cityLower then S "India"
  else if ukCities.contains cityLower then S "UK"
  else if usCities.contains cityLower then S "USA"
  else S "Unknown"

/-- The condition list of the react-agent fallback. -/
def conditions : List Str :=
  [S "Sunny", S "Partly Cloudy", S "Cloudy", S "Rainy"]

/-- The icon list of the react-agent fallback. -/
def icons : List Str := [S "sunny", S "cloudy", S "rainy"]

/-- `createFallbackWeatherData` (react-agent): synthetic record from five
`Math.random()` reads, passed as the rational oracles in source call order
(`temp`, `condition`, `humidity`, `windSpeed`, `icon`).  Condition and icon
are drawn independently. -/
def createFallbackWeatherData (city : Str) (id : Nat)
    (rTemp rCond rHum rWind rIcon : ℚ) : WeatherData :=
  { id := id
    city := city
    country := detectCountry city
    temp := ((⌊rTemp * 25⌋ + 70 : ℤ) : ℚ)
    condition := conditions.getD (Int.toNat ⌊rCond * 4⌋) (S "Sunny")
    humidity := ((⌊rHum * 40⌋ + 40 : ℤ) : ℚ)
    windSpeed := ((⌊rWind * 15⌋ + 5 : ℤ) : ℚ)
    icon := icons.getD (Int.toNat ⌊rIcon * 3⌋) (S "sunny") }

end ReactAgent

-- ### Claim-side predicates

/-- The spec wording of C4 title-casing: in every space-separated word the
first letter is uppercase and the remaining letters are lowercase. -/
def wordTitleCased (w : Str) : Bool :=
  match w.filter isLetterC with
  | [] => true
  | c :: rest => isUpperC c && rest.all isLowerC

/-- The C4 invariant predicate over a whole location name. -/
def titleCasedPerWord (s : Str) : Bool :=
  (splitOnChar ' ' s).all wordTitleCased

/-- Constant random oracle used in concrete evaluations. -/
def r0 : Nat → ℚ × ℚ × ℚ × ℚ := fun _ => (0, 0, 0, 0)

-- ### Helper lemmas about fallback records

/-- Any index (including out of range) selects an entry of the
condition/icon table, since the JS default is the first entry. -/
theorem fallbackConditions_getD_mem (idx : Nat) :
    GenAgent.fallbackConditions.getD idx (S "Sunny", S "sunny")
      ∈ GenAgent.fallbackConditions := by
  match idx with
  | 0 => simp [GenAgent.fallbackConditions, List.getD]
  | 1 => simp [GenAgent.fallbackConditions, List.getD]
  | 2 => simp [GenAgent.fallbackConditions, List.getD]
  | 3 => simp [GenAgent.fallbackConditions, List.getD]
  | n + 4 =>
    have hd : GenAgent.fallbackConditions.getD (n + 4) (S "Sunny", S "sunny")
        = (S "Sunny", S "sunny") := by
      rw [List.getD_eq_getElem?_getD, List.getElem?_eq_none]
      · rfl
      · simp only [GenAgent.fallbackConditions, List.length_cons,
          List.length_nil]
        omega
    rw [hd]
    simp [GenAgent.fallbackConditions]

-- ### Claim C1

/-- Claim C1 counterexample: when the structured completion succeeds but
returns an empty array for one requested city, the aggregation output length
differs from the input length, so length-preservation fails as stated. -/
theorem C1_counterexample :
    (GenAgent.parseWeatherWithLLM [(S "Chennai", S "raw")] [S "Chennai"]
      (some []) r0).length ≠ ([S "Chennai"] : List Str).length := by
  decide

/-- Claim C1 as amended: ids are always 1-based sequential in the output;
the output length equals the requested length whenever the structured
completion fails, and equals the completion response length whenever it
succeeds (which matches the requested length only if the model returns one
entry per city). -/
theorem C1_amended_ids_and_length (searchResults : List (Str × Str))
    (cities : List Str) (llmOutcome : Option (List WeatherItem))
    (rand : Nat → ℚ × ℚ × ℚ × ℚ) :
    (∀ i : Fin (GenAgent.parseWeatherWithLLM searchResults cities llmOutcome
        rand).length,
      ((GenAgent.parseWeatherWithLLM searchResults cities llmOutcome
        rand).get i).id = i.val + 1) ∧
    (llmOutcome = none →
      (GenAgent.parseWeatherWithLLM searchResults cities llmOutcome
        rand).length = cities.length) ∧
    (∀ ws, llmOutcome = some ws →
      (GenAgent.parseWeatherWithLLM searchResults cities llmOutcome
        rand).length = ws.length) := by
  refine ⟨?_, ?_, ?_⟩
  · intro i
    cases llmOutcome with
    | some ws =>
      have hi := i.isLt
      simp only [GenAgent.parseWeatherWithLLM] at hi ⊢
      rw [List.get_eq_getElem]
      simp [List.getElem_map, List.getElem_enum]
    | none =>
      have hi := i.isLt
      simp only [GenAgent.parseWeatherWithLLM] at hi ⊢
      rw [List.get_eq_getElem]
      simp [List.getElem_map, List.getElem_enum,
        GenAgent.createFallbackWeatherData]
  · intro h
    subst h
    simp [GenAgent.parseWeatherWithLLM]
  · intro ws h
    subst h
    simp [GenAgent.parseWeatherWithLLM]

/-- Claim C1 witness: on completion failure a single requested city yields
exactly one record. -/
theorem C1_amended_witness :
    (GenAgent.parseWeatherWithLLM [] [S "Chennai"] none r0).length
      = ([S "Chennai"] : List Str).length :=
  (C1_amended_ids_and_length [] [S "Chennai"] none r0).2.1 rfl

-- ### Claim C2

/-- Helper: condition of the gen-agent fallback at a zero condition seed. -/
theorem genFallback_condition_zero (city : Str) (id : Nat) (rt rh rw : ℚ) :
    (GenAgent.createFallbackWeatherData city id 0 rt rh rw).condition
      = S "Sunny" := by
  show (GenAgent.fallbackConditions.getD (Int.toNat ⌊(0 : ℚ) * 4⌋)
    (S "Sunny", S "sunny")).1 = S "Sunny"
  norm_num [GenAgent.fallbackConditions]

/-- Helper: temperature of the gen-agent fallback at a zero temperature
seed. -/
theorem genFallback_temp_zero (city : Str) (id : Nat) (rc rh rw : ℚ) :
    (GenAgent.createFallbackWeatherData city id rc 0 rh rw).temp = 60 := by
  show ((⌊(0 : ℚ) * 30⌋ + 60 : ℤ) : ℚ) = 60
  norm_num

/-- Claim C2 counterexample: for raw search text containing "22°C" and
"storm", with the structured completion unavailable, the produced record is
a synthetic fallback (here condition "Sunny" and temperature 60 at a zero
random seed), not the claimed temperature=72 / condition="Stormy": no
deterministic textual parser exists in the code. -/
theorem C2_counterexample :
    ((GenAgent.parseWeatherWithLLM
        [(S "Chennai", S "Chennai weather today: 22°C, severe storm")]
        [S "Chennai"] none r0).map (fun w => (w.condition, w.temp)))
      = [(S "Sunny", (60 : ℚ))] ∧
    S "Sunny" ≠ S "Stormy" ∧ ((60 : ℚ) ≠ 72) := by
  refine ⟨?_, by decide, by norm_num⟩
  show [((GenAgent.createFallbackWeatherData (S "Chennai") 1 0 0 0 0).condition,
         (GenAgent.createFallbackWeatherData (S "Chennai") 1 0 0 0 0).temp)]
      = [(S "Sunny", (60 : ℚ))]
  rw [genFallback_condition_zero, genFallback_temp_zero]

/-- Claim C2 as amended: the normalization step has no deterministic textual
parser; when the structured completion fails the raw search text is ignored
entirely (any two raw texts give identical output) and every record is a
synthetic fallback whose condition is one of Sunny / Partly Cloudy / Cloudy /
Rainy, never "Stormy". -/
theorem C2_amended_raw_text_ignored (sr1 sr2 : List (Str × Str))
    (cities : List Str) (rand : Nat → ℚ × ℚ × ℚ × ℚ) :
    GenAgent.parseWeatherWithLLM sr1 cities none rand =
      GenAgent.parseWeatherWithLLM sr2 cities none rand ∧
    ∀ w ∈ GenAgent.parseWeatherWithLLM sr1 cities none rand,
      w.condition ∈ [S "Sunny", S "Partly Cloudy", S "Cloudy", S "Rainy"] ∧
      w.condition ≠ S "Stormy" := by
  constructor
  · rfl
  · intro w hw
    rw [GenAgent.parseWeatherWithLLM] at hw
    obtain ⟨p, _, hpe⟩ := List.mem_map.mp hw
    have hcond : w.condition =
        (GenAgent.fallbackConditions.getD
          (Int.toNat ⌊(rand p.1).1 * 4⌋) (S "Sunny", S "sunny")).1 := by
      rw [← hpe]
      rfl
    have hmem := fallbackConditions_getD_mem (Int.toNat ⌊(rand p.1).1 * 4⌋)
    have hfact : ∀ q ∈ GenAgent.fallbackConditions,
        q.1 ∈ [S "Sunny", S "Partly Cloudy", S "Cloudy", S "Rainy"] ∧
        q.1 ≠ S "Stormy" := by decide
    rw [hcond]
    exact hfact _ hmem

/-- Claim C2 amended witness: for the scenario's raw text, the single
produced record has an allowed condition, and the raw text is irrelevant. -/
theorem C2_amended_witness :
    (GenAgent.parseWeatherWithLLM
        [(S "Chennai", S "Chennai weather today: 22°C, severe storm")]
        [S "Chennai"] none r0 =
      GenAgent.parseWeatherWithLLM [] [S "Chennai"] none r0) ∧
    ((GenAgent.createFallbackWeatherData (S "Chennai") 1 0 0 0 0).condition
      ∈ [S "Sunny", S "Partly Cloudy", S "Cloudy", S "Rainy"]) :=
  ⟨(C2_amended_raw_text_ignored
      [(S "Chennai", S "Chennai weather today: 22°C, severe storm")] []
      [S "Chennai"] r0).1,
   ((C2_amended_raw_text_ignored
      [(S "Chennai", S "Chennai weather today: 22°C, severe storm")] []
      [S "Chennai"] r0).2 _ (List.mem_singleton.mpr rfl)).1⟩

-- ### Claim C3

/-- Claim C3 counterexample: the react-agent fallback draws condition and
icon independently; at concrete random seeds it produces condition "Rainy"
with icon "sunny", violating the condition/icon consistency table. -/
theorem C3_counterexample :
    (ReactAgent.createFallbackWeatherData (S "Chennai") 1 0 (3/4) 0 0
        0).condition = S "Rainy" ∧
    (ReactAgent.createFallbackWeatherData (S "Chennai") 1 0 (3/4) 0 0
        0).icon = S "sunny" ∧
    S "sunny" ≠ S "rainy" := by
  refine ⟨?_, ?_, by decide⟩
  · show ReactAgent.conditions.getD (Int.toNat ⌊(3/4 : ℚ) * 4⌋) (S "Sunny")
      = S "Rainy"
    have h3 : Int.toNat ⌊(3/4 : ℚ) * 4⌋ = 3 := by
      norm_num
      rfl
    rw [h3]
    decide
  · show ReactAgent.icons.getD (Int.toNat ⌊(0 : ℚ) * 3⌋) (S "sunny")
      = S "sunny"
    have h0 : Int.toNat ⌊(0 : ℚ) * 3⌋ = 0 := by norm_num
    rw [h0]
    decide

/-- Claim C3 as amended: for gen-agent synthetic-fallback records the icon
is always consistent with the condition per the precedence table (Rainy ⇒
rainy, Sunny ⇒ sunny, Cloudy and Partly Cloudy ⇒ cloudy); the react-agent
fallback does not guarantee this. -/
theorem C3_amended_gen_icon_matches (city : Str) (id : Nat)
    (rCond rTemp rHum rWind : ℚ) :
    ((GenAgent.createFallbackWeatherData city id rCond rTemp rHum
        rWind).condition = S "Rainy" →
      (GenAgent.createFallbackWeatherData city id rCond rTemp rHum
        rWind).icon = S "rainy") ∧
    ((GenAgent.createFallbackWeatherData city id rCond rTemp rHum
        rWind).condition = S "Sunny" →
      (GenAgent.createFallbackWeatherData city id rCond rTemp rHum
        rWind).icon = S "sunny") ∧
    ((GenAgent.createFallbackWeatherData city id rCond rTemp rHum
        rWind).condition = S "Cloudy" →
      (GenAgent.createFallbackWeatherData city id rCond rTemp rHum
        rWind).icon = S "cloudy") ∧
    ((GenAgent.createFallbackWeatherData city id rCond rTemp rHum
        rWind).condition = S "Partly Cloudy" →
      (GenAgent.createFallbackWeatherData city id rCond rTemp rHum
        rWind).icon = S "cloudy") := by
  have hpair : (GenAgent.createFallbackWeatherData city id rCond rTemp rHum
      rWind).condition
      = (GenAgent.fallbackConditions.getD (Int.toNat ⌊rCond * 4⌋)
        (S "Sunny", S "sunny")).1 := rfl
  have hicon : (GenAgent.createFallbackWeatherData city id rCond rTemp rHum
      rWind).icon
      = (GenAgent.fallbackConditions.getD (Int.toNat ⌊rCond * 4⌋)
        (S "Sunny", S "sunny")).2 := rfl
  have hmem := fallbackConditions_getD_mem (Int.toNat ⌊rCond * 4⌋)
  have hfact : ∀ q ∈ GenAgent.fallbackConditions,
      (q.1 = S "Rainy" → q.2 = S "rainy") ∧
      (q.1 = S "Sunny" → q.2 = S "sunny") ∧
      (q.1 = S "Cloudy" → q.2 = S "cloudy") ∧
      (q.1 = S "Partly Cloudy" → q.2 = S "cloudy") := by decide
  rw [hpair, hicon]
  exact hfact _ hmem

/-- Claim C3 amended witness: at a seed selecting "Rainy" the gen-agent
record's icon is "rainy". -/
theorem C3_amended_witness :
    (GenAgent.createFallbackWeatherData (S "Chennai") 1 (3/4) 0 0 0).icon
      = S "rainy" := by
  apply (C3_amended_gen_icon_matches (S "Chennai") 1 (3/4) 0 0 0).1
  show (GenAgent.fallbackConditions.getD (Int.toNat ⌊(3/4 : ℚ) * 4⌋)
    (S "Sunny", S "sunny")).1 = S "Rainy"
  have h3 : Int.toNat ⌊(3/4 : ℚ) * 4⌋ = 3 := by
    norm_num
    rfl
  rw [h3]
  decide

-- ### Claim C6

/-- Claim C6 as amended: the gen-agent synthetic fallback meets the stated
numeric ranges (temperature in [60,90], humidity in [40,80], wind in
[5,20]) and its condition/icon pair comes from the matching table; the
react-agent variant does not (its temperature ranges over [70,94]). -/
theorem C6_gen_fallback_ranges (city : Str) (id : Nat)
    (rCond rTemp rHum rWind : ℚ)
    (ht0 : 0 ≤ rTemp) (ht1 : rTemp < 1) (hh0 : 0 ≤ rHum) (hh1 : rHum < 1)
    (hw0 : 0 ≤ rWind) (hw1 : rWind < 1) :
    (60 ≤ (GenAgent.createFallbackWeatherData city id rCond rTemp rHum
        rWind).temp ∧
      (GenAgent.createFallbackWeatherData city id rCond rTemp rHum
        rWind).temp ≤ 90) ∧
    (40 ≤ (GenAgent.createFallbackWeatherData city id rCond rTemp rHum
        rWind).humidity ∧
      (GenAgent.createFallbackWeatherData city id rCond rTemp rHum
        rWind).humidity ≤ 80) ∧
    (5 ≤ (GenAgent.createFallbackWeatherData city id rCond rTemp rHum
        rWind).windSpeed ∧
      (GenAgent.createFallbackWeatherData city id rCond rTemp rHum
        rWind).windSpeed ≤ 20) ∧
    ((GenAgent.createFallbackWeatherData city id rCond rTemp rHum
        rWind).condition,
      (GenAgent.createFallbackWeatherData city id rCond rTemp rHum
        rWind).icon) ∈ GenAgent.fallbackConditions := by
  have hT0 : (0 : ℤ) ≤ ⌊rTemp * 30⌋ :=
    Int.le_floor.mpr (by push_cast; positivity)
  have hT1 : ⌊rTemp * 30⌋ < 30 :=
    Int.floor_lt.mpr (by push_cast; nlinarith)
  have hH0 : (0 : ℤ) ≤ ⌊rHum * 40⌋ :=
    Int.le_floor.mpr (by push_cast; positivity)
  have hH1 : ⌊rHum * 40⌋ < 40 :=
    Int.floor_lt.mpr (by push_cast; nlinarith)
  have hW0 : (0 : ℤ) ≤ ⌊rWind * 15⌋ :=
    Int.le_floor.mpr (by push_cast; positivity)
  have hW1 : ⌊rWind * 15⌋ < 15 :=
    Int.floor_lt.mpr (by push_cast; nlinarith)
  refine ⟨⟨?_, ?_⟩, ⟨?_, ?_⟩, ⟨?_, ?_⟩, ?_⟩
  · show (60 : ℚ) ≤ ((⌊rTemp * 30⌋ + 60 : ℤ) : ℚ)
    exact_mod_cast (by omega : (60 : ℤ) ≤ ⌊rTemp * 30⌋ + 60)
  · show ((⌊rTemp * 30⌋ + 60 : ℤ) : ℚ) ≤ 90
    exact_mod_cast (by omega : (⌊rTemp * 30⌋ + 60 : ℤ) ≤ 90)
  · show (40 : ℚ) ≤ ((⌊rHum * 40⌋ + 40 : ℤ) : ℚ)
    exact_mod_cast (by omega : (40 : ℤ) ≤ ⌊rHum * 40⌋ + 40)
  · show ((⌊rHum * 40⌋ + 40 : ℤ) : ℚ) ≤ 80
    exact_mod_cast (by omega : (⌊rHum * 40⌋ + 40 : ℤ) ≤ 80)
  · show (5 : ℚ) ≤ ((⌊rWind * 15⌋ + 5 : ℤ) : ℚ)
    exact_mod_cast (by omega : (5 : ℤ) ≤ ⌊rWind * 15⌋ + 5)
  · show ((⌊rWind * 15⌋ + 5 : ℤ) : ℚ) ≤ 20
    exact_mod_cast (by omega : (⌊rWind * 15⌋ + 5 : ℤ) ≤ 20)
  · show ((GenAgent.fallbackConditions.getD (Int.toNat ⌊rCond * 4⌋)
        (S "Sunny", S "sunny")).1,
      (GenAgent.fallbackConditions.getD (Int.toNat ⌊rCond * 4⌋)
        (S "Sunny", S "sunny")).2) ∈ GenAgent.fallbackConditions
    rw [Prod.mk.eta]
    exact fallbackConditions_getD_mem _

/-- Claim C6 witness: at zero random seeds the gen-agent record's
temperature lies in the stated interval. -/
theorem C6_gen_witness :
    60 ≤ (GenAgent.createFallbackWeatherData (S "Chennai") 1 0 0 0 0).temp ∧
    (GenAgent.createFallbackWeatherData (S "Chennai") 1 0 0 0 0).temp ≤ 90 :=
  (C6_gen_fallback_ranges (S "Chennai") 1 0 0 0 0 (by norm_num) (by norm_num)
    (by norm_num) (by norm_num) (by norm_num) (by norm_num)).1

/-- Claim C6 counterexample: the react-agent fallback can produce
temperature 94 °F, outside the claimed [60,90] range. -/
theorem C6_counterexample :
    (ReactAgent.createFallbackWeatherData (S "Chennai") 1 (99/100) 0 0 0
        0).temp = 94 ∧
    ¬ ((ReactAgent.createFallbackWeatherData (S "Chennai") 1 (99/100) 0 0 0
        0).temp ≤ 90) := by
  have hf : (⌊(99/100 : ℚ) * 25⌋ : ℤ) = 24 := by
    rw [Int.floor_eq_iff]
    norm_num
  have h : (ReactAgent.createFallbackWeatherData (S "Chennai") 1 (99/100) 0 0
      0 0).temp = ((⌊(99/100 : ℚ) * 25⌋ + 70 : ℤ) : ℚ) := rfl
  rw [h, hf]
  norm_num

-- ### Claim C7

/-- Claim C7 (confirmed): whenever the structured intent classification
fails, the fallback intent is "weather" exactly when the lower-cased
utterance contains one of the ten fixed weather keywords as a substring,
and "general" exactly otherwise. -/
theorem C7_keyword_fallback (userMessage : Str) :
    (GenAgent.classifyFallbackIntent userMessage = S "weather" ↔
      ∃ kw ∈ GenAgent.weatherKeywords, ∃ l r,
        lowerS userMessage = l ++ kw ++ r) ∧
    (GenAgent.classifyFallbackIntent userMessage = S "general" ↔
      ¬ ∃ kw ∈ GenAgent.weatherKeywords, ∃ l r,
        lowerS userMessage = l ++ kw ++ r) := by
  by_cases h : GenAgent.weatherKeywords.any
      (fun kw => containsSubstrS (lowerS userMessage) kw) = true
  · rw [GenAgent.classifyFallbackIntent, if_pos h]
    obtain ⟨kw, hkw, hc⟩ := List.any_eq_true.mp h
    have hex : ∃ kw ∈ GenAgent.weatherKeywords, ∃ l r,
        lowerS userMessage = l ++ kw ++ r :=
      ⟨kw, hkw, (containsSubstrS_iff _ _).mp hc⟩
    refine ⟨⟨fun _ => hex, fun _ => rfl⟩, ⟨fun heq => ?_, fun hn => ?_⟩⟩
    · exact absurd heq (by decide)
    · exact absurd hex hn
  · rw [GenAgent.classifyFallbackIntent, if_neg h]
    have hnex : ¬ ∃ kw ∈ GenAgent.weatherKeywords, ∃ l r,
        lowerS userMessage = l ++ kw ++ r := by
      rintro ⟨kw, hkw, l, r, hd⟩
      exact h (List.any_eq_true.mpr
        ⟨kw, hkw, (containsSubstrS_iff _ _).mpr ⟨l, r, hd⟩⟩)
    refine ⟨⟨fun heq => absurd heq (by decide), fun hex => absurd hex hnex⟩,
      ⟨fun _ => hnex, fun _ => rfl⟩⟩

-- ### Claim C8

/-- Claim C8 (confirmed): if no regex pattern produced a capture and no
proper noun survives the skip-list guard, the pattern extractor returns the
fixed default "New York"; the model is a total function on all oracles. -/
theorem C8_pattern_default (o : GenAgent.PatternOracle)
    (hpat : ∀ m ∈ o.patternResults, m = none)
    (hnoun : ∀ noun ∈ o.properNouns, GenAgent.nounOK noun = false) :
    GenAgent.extractCityFromPattern o = S "New York" := by
  rw [GenAgent.extractCityFromPattern]
  have h1 : o.patternResults.filterMap
      (fun om => om.bind GenAgent.processPatternMatch) = [] := by
    rw [List.filterMap_eq_nil_iff]
    intro om hom
    rw [hpat om hom]
    rfl
  have h2 : o.properNouns.find? GenAgent.nounOK = none :=
    List.find?_eq_none.mpr (fun x hx => by rw [hnoun x hx]; simp)
  rw [h1, h2]
  rfl

/-- Claim C8 witness: the all-failing oracle (as produced by the utterance
"hello there", which matches no pattern and has no capitalised token)
returns "New York". -/
theorem C8_witness :
    GenAgent.extractCityFromPattern ⟨List.replicate 10 none, []⟩
      = S "New York" :=
  C8_pattern_default ⟨List.replicate 10 none, []⟩
    (fun _ hm => (List.eq_of_mem_replicate hm))
    (fun noun hnoun => absurd hnoun (List.not_mem_nil noun))

-- ### Claim C10

/-- Claim C10 (confirmed): when the LLM and search strategies produce no
candidate and the pattern extraction yields exactly the default "New York",
that value is discarded and the heuristic fallback decides the location. -/
theorem C10_default_discarded (message : Str) (o : GenAgent.ResolveOracle)
    (h2 : GenAgent.strategyLLM o = none)
    (h3 : GenAgent.strategySearch o = none)
    (hp : GenAgent.extractCityFromPattern o.pattern = S "New York") :
    GenAgent.extractCityFromMessage message o =
      GenAgent.getSmartFallbackCity message o.hour o.rand := by
  rw [GenAgent.extractCityFromMessage, h2, h3, hp]
  rw [if_neg (by decide)]

/-- Claim C10 witness: for "weather in NYC" with both capabilities failing,
the pattern result "New York" (via abbreviation expansion of the capture
"NYC") is discarded and the heuristic fallback answers — which for this
utterance returns "New York" through the regional-hint table. -/
theorem C10_witness :
    GenAgent.extractCityFromMessage (S "weather in NYC")
      ⟨⟨[some (S "NYC")], []⟩, true, none, none, none, 0, 0⟩
      = S "New York" := by
  have h := C10_default_discarded (S "weather in NYC")
    ⟨⟨[some (S "NYC")], []⟩, true, none, none, none, 0, 0⟩
    rfl rfl (by decide)
  rw [h]
  decide

-- ### Claim C9

/-- Resolver capability events never include a structured classification. -/
theorem resolveTrace_no_classify (o : GenAgent.ResolveOracle) :
    (GenAgent.resolveTrace o).count CapEvent.classifyStructured = 0 := by
  rw [List.count_eq_zero]
  intro hm
  rw [GenAgent.resolveTrace] at hm
  rcases List.mem_append.mp hm with h | h
  · by_cases hc : o.hasConfig = true
    · rw [if_pos hc] at h
      rcases List.mem_cons.mp h with h1 | h1
      · exact absurd h1 (by decide)
      · cases hllm : GenAgent.extractCityWithLLM o.llmContent with
        | some llmExtracted =>
          rw [hllm] at h1
          change CapEvent.classifyStructured ∈
            (if llmExtracted ≠ [] ∧ llmExtracted ≠ S "unknown"
             then [CapEvent.searchCall] else []) at h1
          by_cases hg : llmExtracted ≠ [] ∧ llmExtracted ≠ S "unknown"
          · rw [if_pos hg] at h1
            exact absurd (List.mem_singleton.mp h1) (by decide)
          · rw [if_neg hg] at h1
            exact absurd h1 (List.not_mem_nil _)
        | none =>
          rw [hllm] at h1
          change CapEvent.classifyStructured ∈ ([] : List CapEvent) at h1
          exact absurd h1 (List.not_mem_nil _)
    · rw [if_neg hc] at h
      exact absurd h (List.not_mem_nil _)
  · cases hs : GenAgent.strategyLLM o with
    | some v =>
      rw [hs] at h
      change CapEvent.classifyStructured ∈ ([] : List CapEvent) at h
      exact absurd h (List.not_mem_nil _)
    | none =>
      rw [hs] at h
      change CapEvent.classifyStructured ∈
        (if o.hasConfig = true then [CapEvent.searchCall] else []) at h
      by_cases hc : o.hasConfig = true
      · rw [if_pos hc] at h
        exact absurd (List.mem_singleton.mp h) (by decide)
      · rw [if_neg hc] at h
        exact absurd h (List.not_mem_nil _)

/-- Claim C9 (confirmed): one turn of intent classification issues exactly
one structured-completion classification attempt — also when that attempt
fails — and on failure the returned intent is the pure keyword fallback, so
no further classification calls are made. -/
theorem C9_single_attempt (userMessage : Str) (o : GenAgent.ClassifyOracle) :
    (GenAgent.callModelNode userMessage o).2.count
        CapEvent.classifyStructured = 1 ∧
    (o.classification = none →
      (GenAgent.callModelNode userMessage o).1.1 =
        GenAgent.classifyFallbackIntent userMessage) := by
  constructor
  · rw [GenAgent.callModelNode]
    cases hcl : o.classification with
    | some p =>
      cases p with
      | mk intent cityOpt =>
        cases cityOpt with
        | some c => rfl
        | none =>
          show (CapEvent.classifyStructured ::
            GenAgent.resolveTrace o.resolveO).count
              CapEvent.classifyStructured = 1
          simp [List.count_cons, resolveTrace_no_classify]
    | none =>
      show (CapEvent.classifyStructured ::
        GenAgent.resolveTrace o.resolveO).count
          CapEvent.classifyStructured = 1
      simp [List.count_cons, resolveTrace_no_classify]
  · intro h
    rw [GenAgent.callModelNode, h]

/-- Claim C9 witness: with a failing classification the trace has exactly
one classification attempt and the intent is the keyword fallback. -/
theorem C9_witness :
    (GenAgent.callModelNode (S "hello")
        ⟨none, ⟨⟨[], []⟩, false, none, none, none, 0, 0⟩⟩).2.count
        CapEvent.classifyStructured = 1 ∧
    (GenAgent.callModelNode (S "hello")
        ⟨none, ⟨⟨[], []⟩, false, none, none, none, 0, 0⟩⟩).1.1 =
      GenAgent.classifyFallbackIntent (S "hello") :=
  ⟨(C9_single_attempt (S "hello")
      ⟨none, ⟨⟨[], []⟩, false, none, none, none, 0, 0⟩⟩).1,
   (C9_single_attempt (S "hello")
      ⟨none, ⟨⟨[], []⟩, false, none, none, none, 0, 0⟩⟩).2 rfl⟩

-- ### Claim C4

/-- The invariant every resolver output satisfies: non-empty, length in
[2,50), and either an abbreviation-table value or title-shaped. -/
abbrev GoodCity (c : Str) : Prop :=
  c ≠ [] ∧ 2 ≤ c.length ∧ c.length < 50 ∧
  (c ∈ GenAgent.abbreviations.map Prod.snd ∨ titleShaped c = true)

/-- A successful string lookup returns one of the table's values. -/
theorem lookupStr_mem_values {k v : Str} {l : List (Str × Str)}
    (h : GenAgent.lookupStr k l = some v) : v ∈ l.map Prod.snd := by
  induction l with
  | nil => simp [GenAgent.lookupStr] at h
  | cons p rest ih =>
    cases p with
    | mk k2 v2 =>
      rw [GenAgent.lookupStr] at h
      by_cases hk : k2 = k
      · rw [if_pos hk] at h
        cases h
        exact List.mem_cons_self _ _
      · rw [if_neg hk] at h
        exact List.mem_cons_of_mem _ (ih h)

/-- `formatCityName` output is good whenever the input length is in the
guard range [2,50). -/
theorem formatCityName_good {c : Str} (h2 : 2 ≤ c.length)
    (h50 : c.length < 50) : GoodCity (GenAgent.formatCityName c) := by
  rw [GenAgent.formatCityName]
  cases hl : GenAgent.lookupStr (trimS (lowerS c)) GenAgent.abbreviations with
  | some v =>
    have hv : v ∈ GenAgent.abbreviations.map Prod.snd := lookupStr_mem_values hl
    have hall : ∀ w ∈ GenAgent.abbreviations.map Prod.snd,
        w ≠ [] ∧ 2 ≤ w.length ∧ w.length < 50 := by decide
    exact ⟨(hall v hv).1, (hall v hv).2.1, (hall v hv).2.2, Or.inl hv⟩
  | none =>
    refine ⟨?_, ?_, ?_, Or.inr (titleShaped_titleCase c)⟩
    · apply List.length_pos.mp
      rw [titleCase_length]
      omega
    · rw [titleCase_length]; exact h2
    · rw [titleCase_length]; exact h50

/-- Pattern-capture post-processing only emits good cities. -/
theorem processPatternMatch_good {m v : Str}
    (h : GenAgent.processPatternMatch m = some v) : GoodCity v := by
  rw [GenAgent.processPatternMatch] at h
  by_cases hg : 1 < (GenAgent.patternCity m).length ∧
      (GenAgent.patternCity m).length < 50 ∧
      GenAgent.invalidWords.contains (lowerS (GenAgent.patternCity m)) = false
  · rw [if_pos hg] at h
    cases h
    exact formatCityName_good (by omega) hg.2.1
  · rw [if_neg hg] at h
    cases h

/-- The LLM extraction strategy only emits good cities. -/
theorem extractCityWithLLM_good {lc : Option Str} {v : Str}
    (h : GenAgent.extractCityWithLLM lc = some v) : GoodCity v := by
  cases lc with
  | none => simp [GenAgent.extractCityWithLLM] at h
  | some raw =>
    rw [GenAgent.extractCityWithLLM] at h
    by_cases hg : trimS raw ≠ [] ∧ trimS raw ≠ S "unknown" ∧
        1 < (trimS raw).length ∧ (trimS raw).length < 50
    · rw [if_pos hg] at h
      cases h
      exact formatCityName_good (by omega) hg.2.2.2
    · rw [if_neg hg] at h
      cases h

/-- Search validation of a good candidate only emits good cities. -/
theorem validateCityWithSearch_good {cb : Option Bool} {cand v : Str}
    (hc : GoodCity cand)
    (h : GenAgent.validateCityWithSearch cb cand = some v) : GoodCity v := by
  cases cb with
  | none => simp [GenAgent.validateCityWithSearch] at h
  | some b =>
    rw [GenAgent.validateCityWithSearch] at h
    by_cases hb : b = true
    · subst hb
      rw [if_pos rfl] at h
      cases h
      exact formatCityName_good hc.2.1 hc.2.2.1
    · rw [Bool.eq_false_iff.mpr hb] at h
      rw [if_neg Bool.false_ne_true] at h
      cases h

/-- Strategy 2 only emits good cities. -/
theorem strategyLLM_good {o : GenAgent.ResolveOracle} {v : Str}
    (h : GenAgent.strategyLLM o = some v) : GoodCity v := by
  rw [GenAgent.strategyLLM] at h
  by_cases hc : o.hasConfig = true
  · rw [if_pos hc] at h
    cases hllm : GenAgent.extractCityWithLLM o.llmContent with
    | none => rw [hllm] at h; cases h
    | some llmExtracted =>
      rw [hllm] at h
      change (if llmExtracted ≠ [] ∧ llmExtracted ≠ S "unknown" then
        GenAgent.validateCityWithSearch o.validateConfirms llmExtracted
        else none) = some v at h
      by_cases hg : llmExtracted ≠ [] ∧ llmExtracted ≠ S "unknown"
      · rw [if_pos hg] at h
        exact validateCityWithSearch_good (extractCityWithLLM_good hllm) h
      · rw [if_neg hg] at h
        cases h
  · rw [if_neg hc] at h
    cases h

/-- Search discovery only emits good cities. -/
theorem extractCityFromSearch_good {cands : Option (List Str)} {v : Str}
    (h : GenAgent.extractCityFromSearch cands = some v) : GoodCity v := by
  cases cands with
  | none => exact absurd h (by simp [GenAgent.extractCityFromSearch])
  | some l =>
    change (match l.find? (fun m => decide (2 < (trimS m).length)
        && decide ((trimS m).length < 30)) with
      | some m => some (GenAgent.formatCityName (trimS m))
      | none => none) = some v at h
    cases hfind : l.find? (fun m => decide (2 < (trimS m).length)
        && decide ((trimS m).length < 30)) with
    | none =>
      rw [hfind] at h
      cases h
    | some m =>
      rw [hfind] at h
      change some (GenAgent.formatCityName (trimS m)) = some v at h
      cases h
      have hguard := List.find?_some hfind
      rw [Bool.and_eq_true, decide_eq_true_iff, decide_eq_true_iff] at hguard
      exact formatCityName_good (by omega) (by omega)

/-- Strategy 3 only emits good cities. -/
theorem strategySearch_good {o : GenAgent.ResolveOracle} {v : Str}
    (h : GenAgent.strategySearch o = some v) : GoodCity v := by
  rw [GenAgent.strategySearch] at h
  by_cases hc : o.hasConfig = true
  · rw [if_pos hc] at h
    exact extractCityFromSearch_good h
  · rw [if_neg hc] at h
    cases h

/-- The pattern extractor always emits a good city. -/
theorem extractCityFromPattern_good (o : GenAgent.PatternOracle) :
    GoodCity (GenAgent.extractCityFromPattern o) := by
  rw [GenAgent.extractCityFromPattern]
  cases hh : (o.patternResults.filterMap
      (fun om => om.bind GenAgent.processPatternMatch)).head? with
  | some city =>
    have hmem := List.mem_of_mem_head? hh
    obtain ⟨om, _, hom⟩ := List.mem_filterMap.mp hmem
    cases om with
    | none => cases hom
    | some m => exact processPatternMatch_good hom
  | none =>
    cases hfind : o.properNouns.find? GenAgent.nounOK with
    | some noun =>
      have hguard := List.find?_some hfind
      rw [GenAgent.nounOK] at hguard
      simp only [Bool.and_eq_true, decide_eq_true_iff] at hguard
      exact formatCityName_good (by omega) (by omega)
    | none =>
      show GoodCity (S "New York")
      exact ⟨by decide, by decide, by decide, Or.inl (by decide)⟩

/-- Random rotation picks stay inside the list when the seed is in [0,1). -/
theorem randPick_mem {l : List Str} (hl : l ≠ []) {r : ℚ} (_h0 : 0 ≤ r)
    (h1 : r < 1) : GenAgent.randPick l r ∈ l := by
  rw [GenAgent.randPick]
  have hlen : 0 < l.length := List.length_pos.mpr hl
  have hfl : ⌊r * (l.length : ℚ)⌋ < (l.length : ℤ) := by
    apply Int.floor_lt.mpr
    push_cast
    have hlenq : (0 : ℚ) < (l.length : ℚ) := by exact_mod_cast hlen
    nlinarith
  have hidx : Int.toNat ⌊r * (l.length : ℚ)⌋ < l.length := by omega
  rw [List.getD_eq_getElem?_getD, List.getElem?_eq_getElem hidx]
  exact List.getElem_mem hidx

/-- The heuristic fallback always returns a good city. -/
theorem getSmartFallbackCity_good (message : Str) (hour : Nat) {r : ℚ}
    (h0 : 0 ≤ r) (h1 : r < 1) :
    GoodCity (GenAgent.getSmartFallbackCity message hour r) := by
  rw [GenAgent.getSmartFallbackCity]
  cases hf : GenAgent.regionalHints.find?
      (fun p => p.2.any (fun hint => containsSubstrS (lowerS message) hint))
      with
  | some p =>
    have hmem := List.mem_of_find?_eq_some hf
    have hall : ∀ q ∈ GenAgent.regionalHints, GoodCity q.1 := by decide
    exact hall p hmem
  | none =>
    have hb : ∀ x ∈ GenAgent.businessCities, GoodCity x := by decide
    have he : ∀ x ∈ GenAgent.entertainmentCities, GoodCity x := by decide
    have hg : ∀ x ∈ GenAgent.globalCities, GoodCity x := by decide
    by_cases hm : 6 ≤ hour ∧ hour < 12
    · rw [if_pos hm]
      exact hb _ (randPick_mem (by decide) h0 h1)
    · rw [if_neg hm]
      by_cases hev : 18 ≤ hour ∧ hour < 24
      · rw [if_pos hev]
        exact he _ (randPick_mem (by decide) h0 h1)
      · rw [if_neg hev]
        exact hg _ (randPick_mem (by decide) h0 h1)

/-- Claim C4 counterexample: for the utterance "weather in dc" (whose first
regex pattern captures "dc") with both capabilities failing, the resolver
returns "Washington DC", which is not title-cased per word ("DC" has an
uppercase second letter); so the title-case invariant fails as stated, and
it is even incompatible with the claimed "DC"→"Washington DC" expansion. -/
theorem C4_counterexample :
    GenAgent.extractCityFromMessage (S "weather in dc")
        ⟨⟨[some (S "dc")], []⟩, true, none, none, none, 0, 0⟩
      = S "Washington DC" ∧
    titleCasedPerWord (S "Washington DC") = false :=
  ⟨by decide, by decide⟩

/-- Claim C4 as amended: for every utterance and capability outcome the
resolved location is non-empty with length in [2,50) and is either an
abbreviation-table value (such as "Washington DC", which keeps its fixed
casing) or has every word with its leading character uppercased and all
following letters lowercase; abbreviations are expanded, e.g.
"NYC"→"New York" and "dc"→"Washington DC". -/
theorem C4_amended_resolver_invariant (message : Str)
    (o : GenAgent.ResolveOracle) (hr0 : 0 ≤ o.rand) (hr1 : o.rand < 1) :
    GoodCity (GenAgent.extractCityFromMessage message o) ∧
    GenAgent.formatCityName (S "NYC") = S "New York" ∧
    GenAgent.formatCityName (S "dc") = S "Washington DC" := by
  refine ⟨?_, by decide, by decide⟩
  rw [GenAgent.extractCityFromMessage]
  cases h2 : GenAgent.strategyLLM o with
  | some validated => exact strategyLLM_good h2
  | none =>
    cases h3 : GenAgent.strategySearch o with
    | some searchExtracted => exact strategySearch_good h3
    | none =>
      by_cases hp : GenAgent.extractCityFromPattern o.pattern ≠ [] ∧
          GenAgent.extractCityFromPattern o.pattern ≠ S "New York"
      · rw [if_pos hp]
        exact extractCityFromPattern_good o.pattern
      · rw [if_neg hp]
        exact getSmartFallbackCity_good message o.hour hr0 hr1

/-- Claim C4 amended witness: the invariant at a concrete utterance and the
all-failing oracle. -/
theorem C4_amended_witness :
    GoodCity (GenAgent.extractCityFromMessage (S "hello")
      ⟨⟨[], []⟩, false, none, none, none, 0, 0⟩) ∧
    GenAgent.formatCityName (S "NYC") = S "New York" ∧
    GenAgent.formatCityName (S "dc") = S "Washington DC" :=
  C4_amended_resolver_invariant (S "hello")
    ⟨⟨[], []⟩, false, none, none, none, 0, 0⟩ (by norm_num) (by norm_num)

-- ### Claim C5

/-- Lowercasing preserves whitespace-ness. -/
theorem isWS_toLowerC (c : Char) : isWS (toLowerC c) = isWS c := by
  cases h : caseTable.find? (fun p => p.2 = c) with
  | none => rw [toLowerC_of_none h]
  | some p =>
    rw [toLowerC_of_some h]
    have hmem := List.mem_of_find?_eq_some h
    have hws := List.all_eq_true.mp caseTable_not_ws p hmem
    rw [Bool.and_eq_true, Bool.not_eq_eq_eq_not, Bool.not_eq_eq_eq_not] at hws
    have hc : p.2 = c := by simpa using List.find?_some h
    rw [← hc, hws.1, hws.2]

/-- Trimming commutes with lowercasing. -/
theorem trimS_lowerS (s : Str) : trimS (lowerS s) = lowerS (trimS s) := by
  have hfun : (isWS ∘ toLowerC) = isWS := by
    funext x
    exact isWS_toLowerC x
  have hdw : ∀ l : Str, List.dropWhile isWS (l.map toLowerC)
      = (List.dropWhile isWS l).map toLowerC := by
    intro l
    rw [List.dropWhile_map, hfun]
  show trimS (s.map toLowerC) = (trimS s).map toLowerC
  rw [trimS, trimS, hdw, ← List.map_reverse, hdw, ← List.map_reverse]

/-- A successful list-valued lookup returns one of the table's values. -/
theorem lookupStrL_mem_values {k : Str} {v : List Str}
    {l : List (Str × List Str)} (h : GenAgent.lookupStrL k l = some v) :
    v ∈ l.map Prod.snd := by
  induction l with
  | nil => simp [GenAgent.lookupStrL] at h
  | cons p rest ih =>
    cases p with
    | mk k2 v2 =>
      rw [GenAgent.lookupStrL] at h
      by_cases hk : k2 = k
      · rw [if_pos hk] at h
        cases h
        exact List.mem_cons_self _ _
      · rw [if_neg hk] at h
        exact List.mem_cons_of_mem _ (ih h)

/-- A successful list-valued lookup finds an entry keyed by the query. -/
theorem lookupStrL_mem_entry {k : Str} {v : List Str}
    {l : List (Str × List Str)} (h : GenAgent.lookupStrL k l = some v) :
    (k, v) ∈ l := by
  induction l with
  | nil => simp [GenAgent.lookupStrL] at h
  | cons p rest ih =>
    cases p with
    | mk k2 v2 =>
      rw [GenAgent.lookupStrL] at h
      by_cases hk : k2 = k
      · rw [if_pos hk] at h
        cases h
        subst hk
        exact List.mem_cons_self _ _
      · rw [if_neg hk] at h
        exact List.mem_cons_of_mem _ (ih h)

/-- A failed list-valued lookup means no entry is keyed by the query. -/
theorem lookupStrL_none {k : Str} {l : List (Str × List Str)}
    (h : GenAgent.lookupStrL k l = none) : ∀ p ∈ l, p.1 ≠ k := by
  induction l with
  | nil => intro p hp; exact absurd hp (List.not_mem_nil p)
  | cons q rest ih =>
    cases q with
    | mk k2 v2 =>
      rw [GenAgent.lookupStrL] at h
      by_cases hk : k2 = k
      · rw [if_pos hk] at h
        cases h
      · rw [if_neg hk] at h
        intro p hp
        rcases List.mem_cons.mp hp with h1 | h1
        · subst h1
          exact hk
        · exact ih h p h1

/-- A successful string lookup finds an entry keyed by the query. -/
theorem lookupStr_mem_entry {k v : Str} {l : List (Str × Str)}
    (h : GenAgent.lookupStr k l = some v) : (k, v) ∈ l := by
  induction l with
  | nil => simp [GenAgent.lookupStr] at h
  | cons p rest ih =>
    cases p with
    | mk k2 v2 =>
      rw [GenAgent.lookupStr] at h
      by_cases hk : k2 = k
      · rw [if_pos hk] at h
        cases h
        subst hk
        exact List.mem_cons_self _ _
      · rw [if_neg hk] at h
        exact List.mem_cons_of_mem _ (ih h)

/-- Invariant of the discovery accumulator: pairwise case-insensitively
distinct, every entry title-case stable and distinct from the main city. -/
def ExpInv (mainLower : Str) (acc : List Str) : Prop :=
  acc.Pairwise (fun a b => lowerS a ≠ lowerS b) ∧
  ∀ x ∈ acc, titleCase x = x ∧ lowerS x ≠ mainLower

/-- Title-case-stable strings that agree case-insensitively are equal. -/
theorem titleFixed_lower_inj {a b : Str} (ha : titleCase a = a)
    (hb : titleCase b = b) (he : lowerS a = lowerS b) : a = b := by
  calc a = titleCase a := ha.symm
    _ = titleCase (lowerS a) := (titleCase_lowerS a).symm
    _ = titleCase (lowerS b) := by rw [he]
    _ = titleCase b := titleCase_lowerS b
    _ = b := hb

/-- One conditional push preserves the discovery invariant. -/
theorem pushCity_inv {mainLower f : Str} {cap : Nat} {acc : List Str}
    (hi : ExpInv mainLower acc) (hf : titleCase f = f) :
    ExpInv mainLower (GenAgent.pushCity mainLower cap acc f) := by
  rw [GenAgent.pushCity]
  by_cases hcond : acc.contains f = false ∧ lowerS f ≠ mainLower ∧
      acc.length < cap
  · rw [if_pos hcond]
    constructor
    · rw [List.pairwise_append]
      refine ⟨hi.1, List.pairwise_singleton _ _, ?_⟩
      intro a ha b hb
      rw [List.mem_singleton] at hb
      rw [hb]
      intro he
      have haf : a = f := titleFixed_lower_inj (hi.2 a ha).1 hf he
      have hmem : acc.contains a = true := List.elem_eq_true_of_mem ha
      rw [haf, hcond.1] at hmem
      cases hmem
    · intro x hx
      rcases List.mem_append.mp hx with h1 | h1
      · exact hi.2 x h1
      · rw [List.mem_singleton] at h1
        subst h1
        exact ⟨hf, hcond.2.1⟩
  · rw [if_neg hcond]
    exact hi

/-- Folding conditional pushes of title-case-stable strings preserves the
discovery invariant. -/
theorem foldl_pushCity_inv {mainLower : Str} {cap : Nat}
    (cands : List Str) (g : Str → Str)
    (hg : ∀ c ∈ cands, titleCase (g c) = g c) {acc : List Str}
    (hi : ExpInv mainLower acc) :
    ExpInv mainLower (cands.foldl
      (fun acc c => GenAgent.pushCity mainLower cap acc (g c)) acc) := by
  induction cands generalizing acc with
  | nil => exact hi
  | cons c cs ih =>
    exact ih (fun x hx => hg x (List.mem_cons_of_mem c hx))
      (pushCity_inv hi (hg c (List.mem_cons_self c cs)))

/-- Discovery candidates are trimmed and longer than two characters. -/
theorem discoverCandidates_shape {cityTexts : List Str} {c : Str}
    (hc : c ∈ GenAgent.discoverCandidates cityTexts) :
    trimS c = c ∧ 2 < c.length := by
  rw [GenAgent.discoverCandidates] at hc
  obtain ⟨t, _, hct⟩ := List.mem_flatMap.mp hc
  obtain ⟨hmem, hfil⟩ := List.mem_filter.mp hct
  obtain ⟨w, _, hwe⟩ := List.mem_map.mp hmem
  rw [Bool.and_eq_true, decide_eq_true_iff, decide_eq_true_iff] at hfil
  exact ⟨by rw [← hwe]; exact trimS_trimS w, hfil.1⟩

/-- Formatting a trimmed, length-three-plus candidate is title-case
stable (the only non-stable abbreviation value, "Washington DC", is
keyed by the two-letter "dc" and cannot be reached). -/
theorem formatCityName_titleFixed {c : Str} (htrim : trimS c = c)
    (hlen : 2 < c.length) :
    titleCase (GenAgent.formatCityName c) = GenAgent.formatCityName c := by
  rw [GenAgent.formatCityName]
  cases hl : GenAgent.lookupStr (trimS (lowerS c)) GenAgent.abbreviations with
  | none => exact titleCase_titleCase c
  | some v =>
    have hcomm : trimS (lowerS c) = lowerS c := by
      rw [trimS_lowerS, htrim]
    have hklen : 2 < (trimS (lowerS c)).length := by
      rw [hcomm]
      show 2 < (c.map toLowerC).length
      rw [List.length_map]
      exact hlen
    have hmem := lookupStr_mem_entry hl
    have hfact : ∀ p ∈ GenAgent.abbreviations,
        2 < p.1.length → titleCase p.2 = p.2 := by decide
    exact hfact _ hmem hklen

/-- Regional default cities are title-case stable. -/
theorem getRegionalDefaults_titleFixed (region : Str) :
    ∀ x ∈ GenAgent.getRegionalDefaults region, titleCase x = x := by
  rw [GenAgent.getRegionalDefaults]
  cases hl : GenAgent.lookupStrL region GenAgent.regionalDefaultsTable with
  | some v =>
    have hmem := lookupStrL_mem_values hl
    have hfact : ∀ w ∈ GenAgent.regionalDefaultsTable.map Prod.snd,
        ∀ x ∈ w, titleCase x = x := by decide
    simpa using hfact v hmem
  | none =>
    show ∀ x ∈ [S "New York", S "London", S "Tokyo", S "Sydney"],
      titleCase x = x
    decide

/-- The discovery output satisfies the discovery invariant. -/
theorem discoverNearbyCities_inv (mainCity : Str) (cityTexts : List Str) :
    ExpInv (lowerS mainCity)
      (GenAgent.discoverNearbyCities mainCity cityTexts) := by
  have h0 : ExpInv (lowerS mainCity) ([] : List Str) :=
    ⟨List.Pairwise.nil, fun x hx => absurd hx (List.not_mem_nil x)⟩
  have h1 : ExpInv (lowerS mainCity)
      (GenAgent.discoverPhase1 mainCity cityTexts) := by
    rw [GenAgent.discoverPhase1]
    exact foldl_pushCity_inv _ _
      (fun c hc =>
        formatCityName_titleFixed (discoverCandidates_shape hc).1
          (discoverCandidates_shape hc).2) h0
  have h2 : ExpInv (lowerS mainCity)
      (GenAgent.discoverPhase2 mainCity cityTexts) := by
    rw [GenAgent.discoverPhase2]
    by_cases hlt : (GenAgent.discoverPhase1 mainCity cityTexts).length < 3
    · rw [if_pos hlt]
      exact foldl_pushCity_inv _ _
        (fun c hc => getRegionalDefaults_titleFixed _ c hc) h1
    · rw [if_neg hlt]
      exact h1
  rw [GenAgent.discoverNearbyCities]
  exact ⟨h2.1.sublist (List.take_sublist _ _),
    fun x hx => h2.2 x (List.mem_of_mem_take hx)⟩

/-- The first four default cities never collide case-insensitively with a
main city that missed the static table (their lowercase forms are all
static-table keys). -/
theorem defaults_ne_main {mainCity : Str}
    (hl : GenAgent.lookupStrL (lowerS mainCity) GenAgent.nearbyCitiesMap
      = none) :
    ∀ x ∈ [S "New York", S "London", S "Tokyo", S "Sydney"],
      lowerS mainCity ≠ lowerS x := by
  intro x hx he
  fin_cases hx
  · rw [show lowerS (S "New York") = S "new york" from by decide] at he
    rw [he] at hl
    exact absurd hl (by decide)
  · rw [show lowerS (S "London") = S "london" from by decide] at he
    rw [he] at hl
    exact absurd hl (by decide)
  · rw [show lowerS (S "Tokyo") = S "tokyo" from by decide] at he
    rw [he] at hl
    exact absurd hl (by decide)
  · rw [show lowerS (S "Sydney") = S "sydney" from by decide] at he
    rw [he] at hl
    exact absurd hl (by decide)

/-- The default-list branch of `weatherNode` satisfies the C5 invariant. -/
theorem weatherNode_defaults_branch {mainCity : Str}
    (hl : GenAgent.lookupStrL (lowerS mainCity) GenAgent.nearbyCitiesMap
      = none) :
    1 ≤ (mainCity :: ((GenAgent.lookupStrL (S "default")
        GenAgent.nearbyCitiesMap).getD []).take 4).length ∧
    (mainCity :: ((GenAgent.lookupStrL (S "default")
        GenAgent.nearbyCitiesMap).getD []).take 4).length ≤ 5 ∧
    (mainCity :: ((GenAgent.lookupStrL (S "default")
        GenAgent.nearbyCitiesMap).getD []).take 4).head? = some mainCity ∧
    (mainCity :: ((GenAgent.lookupStrL (S "default")
        GenAgent.nearbyCitiesMap).getD []).take 4).Pairwise
      (fun a b => lowerS a ≠ lowerS b) := by
  have hdef : ((GenAgent.lookupStrL (S "default")
      GenAgent.nearbyCitiesMap).getD []).take 4
      = [S "New York", S "London", S "Tokyo", S "Sydney"] := by decide
  rw [hdef]
  refine ⟨by simp, by simp, rfl, ?_⟩
  rw [List.pairwise_cons]
  exact ⟨defaults_ne_main hl, by decide⟩

/-- Claim C5 (confirmed): for every primary location and every discovery
outcome, the city list built by `weatherNode` has between 1 and 5 entries,
starts with the primary location, and contains no case-insensitive
duplicates. -/
theorem C5_expansion_invariant (mainCity : Str) (o : GenAgent.ExpandOracle) :
    1 ≤ (GenAgent.weatherNodeCities mainCity o).length ∧
    (GenAgent.weatherNodeCities mainCity o).length ≤ 5 ∧
    (GenAgent.weatherNodeCities mainCity o).head? = some mainCity ∧
    (GenAgent.weatherNodeCities mainCity o).Pairwise
      (fun a b => lowerS a ≠ lowerS b) := by
  rw [GenAgent.weatherNodeCities]
  cases hl : GenAgent.lookupStrL (lowerS mainCity) GenAgent.nearbyCitiesMap
      with
  | some nearby =>
    have hentry := lookupStrL_mem_entry hl
    have hfact : ∀ p ∈ GenAgent.nearbyCitiesMap,
        (∀ x ∈ p.2.take 4, lowerS x ≠ p.1) ∧
        (p.2.take 4).Pairwise (fun a b => lowerS a ≠ lowerS b) := by decide
    have hthis := hfact _ hentry
    refine ⟨by simp, ?_, rfl, ?_⟩
    · show (mainCity :: nearby.take 4).length ≤ 5
      simp only [List.length_cons, List.length_take]
      omega
    · rw [List.pairwise_cons]
      exact ⟨fun b hb => (hthis.1 b hb).symm, hthis.2⟩
  | none =>
    by_cases hw : o.discoverWorks = true
    · rw [if_pos hw]
      by_cases hd : 0 < (GenAgent.discoverNearbyCities mainCity
          o.cityTexts).length
      · rw [if_pos hd]
        have hinv := discoverNearbyCities_inv mainCity o.cityTexts
        refine ⟨by simp, ?_, rfl, ?_⟩
        · show (mainCity :: (GenAgent.discoverNearbyCities mainCity
              o.cityTexts).take 4).length ≤ 5
          simp only [List.length_cons, List.length_take]
          omega
        · rw [List.pairwise_cons]
          refine ⟨?_, hinv.1.sublist (List.take_sublist _ _)⟩
          intro b hb
          exact fun he => (hinv.2 b (List.mem_of_mem_take hb)).2 he.symm
      · rw [if_neg hd]
        exact weatherNode_defaults_branch hl
    · rw [if_neg hw]
      exact weatherNode_defaults_branch hl

/-- Claim C7 witness: a concrete weather utterance classifies as weather
via the keyword decomposition. -/
theorem C7_witness :
    GenAgent.classifyFallbackIntent (S "what is the weather today")
      = S "weather" :=
  (C7_keyword_fallback (S "what is the weather today")).1.mpr
    ⟨S "weather", by decide, S "what is the ", S " today", by decide⟩
